import Mathlib

/-!
# golang-mtls: certificate issuance (`authority/issue_cert.go`) and bootstrap (`main.go`)

The repository's own code is a straight-line composition of calls into the Go
standard library (`crypto/ecdsa`, `crypto/x509`, `encoding/pem`, `crypto/tls`,
`time`).  The embedding keeps that shape:

* the standard library is a record `Lib W` of operations over an explicit
  world `W` (entropy source and clock);
* `authority.IssueCACrt`, `authority.IssueServerCrt`, `authority.IssueClientCrt`
  and `main` are transcribed statement by statement, returning the Go result
  pair `(*Certificate, error)`, the final world and the chronological list of
  library calls they made (`Event`), each with its arguments and its result;
* `RefLib` is one executable instance of the library, used to run the code on
  concrete inputs.
-/

set_option linter.dupNamespace false

namespace Mtls

/-- A Go `byte`. -/
abbrev Byte := Fin 256

/-- A Go `[]byte`. -/
abbrev Bytes := List Byte

namespace time

/-- The constant `time.Hour`, in nanoseconds. -/
def Hour : Int := 3600000000000

end time

namespace ecdsa

/-- The type `ecdsa.PublicKey`: a curve point. -/
structure PublicKey where
  X : Nat
  Y : Nat
  deriving DecidableEq

/-- The type `ecdsa.PrivateKey`: Go embeds the public key in the private key. -/
structure PrivateKey where
  PublicKey : ecdsa.PublicKey
  D : Nat
  deriving DecidableEq

/-- The method `(*PrivateKey).Public`: the embedded public key. -/
def PrivateKey.Public (priv : PrivateKey) : ecdsa.PublicKey := priv.PublicKey

end ecdsa

namespace pkix

/-- The type `pkix.Name`, restricted to the field the repository sets. -/
structure Name where
  CommonName : String
  deriving DecidableEq

end pkix

namespace pem

/-- The type `pem.Block` (`Typ` is its field `Type`). -/
structure Block where
  Typ : String
  Headers : List (String × String)
  Bytes : Bytes
  deriving DecidableEq

end pem

namespace x509

/-- The bit `x509.KeyUsageDigitalSignature` (`1 << 0`). -/
def KeyUsageDigitalSignature : Nat := 1
/-- The bit `x509.KeyUsageContentCommitment` (`1 << 1`). -/
def KeyUsageContentCommitment : Nat := 2
/-- The bit `x509.KeyUsageKeyEncipherment` (`1 << 2`). -/
def KeyUsageKeyEncipherment : Nat := 4
/-- The bit `x509.KeyUsageDataEncipherment` (`1 << 3`). -/
def KeyUsageDataEncipherment : Nat := 8
/-- The bit `x509.KeyUsageKeyAgreement` (`1 << 4`). -/
def KeyUsageKeyAgreement : Nat := 16
/-- The bit `x509.KeyUsageCertSign` (`1 << 5`). -/
def KeyUsageCertSign : Nat := 32
/-- The bit `x509.KeyUsageCRLSign` (`1 << 6`). -/
def KeyUsageCRLSign : Nat := 64
/-- The bit `x509.KeyUsageEncipherOnly` (`1 << 7`). -/
def KeyUsageEncipherOnly : Nat := 128
/-- The bit `x509.KeyUsageDecipherOnly` (`1 << 8`). -/
def KeyUsageDecipherOnly : Nat := 256

/-- All nine key-usage bits of `crypto/x509`. -/
def allKeyUsages : List Nat :=
  [KeyUsageDigitalSignature, KeyUsageContentCommitment, KeyUsageKeyEncipherment,
   KeyUsageDataEncipherment, KeyUsageKeyAgreement, KeyUsageCertSign, KeyUsageCRLSign,
   KeyUsageEncipherOnly, KeyUsageDecipherOnly]

/-- The constant `x509.ExtKeyUsageAny`. -/
def ExtKeyUsageAny : Nat := 0
/-- The constant `x509.ExtKeyUsageServerAuth`. -/
def ExtKeyUsageServerAuth : Nat := 1
/-- The constant `x509.ExtKeyUsageClientAuth`. -/
def ExtKeyUsageClientAuth : Nat := 2

/-- The type `x509.Certificate`, restricted to the fields the repository sets
(with Go's zero values as defaults) and the two a parsed certificate adds. -/
structure Certificate where
  Subject : pkix.Name := ⟨""⟩
  Issuer : pkix.Name := ⟨""⟩
  SerialNumber : Option Int := none
  BasicConstraintsValid : Bool := false
  IsCA : Bool := false
  NotBefore : Int := 0
  NotAfter : Int := 0
  DNSNames : List String := []
  KeyUsage : Nat := 0
  ExtKeyUsage : List Nat := []
  PublicKey : Option ecdsa.PublicKey := none
  deriving DecidableEq

/-- Membership of one usage bit in a `KeyUsage` bit mask. -/
def hasKeyUsage (ku bit : Nat) : Bool := ku &&& bit != 0

/-- The CA-sign-capability check: the certificate asserts `IsCA` and carries the
certificate-sign key usage. -/
def canSignCertificates (c : Certificate) : Bool :=
  c.IsCA && hasKeyUsage c.KeyUsage KeyUsageCertSign

/-- The type `x509.CertPool`: the certificates added so far. -/
abbrev CertPool := List Certificate

/-- The function `x509.NewCertPool`. -/
def NewCertPool : CertPool := []

end x509

namespace tls

/-- The type `tls.Certificate`: a DER chain and its private key. -/
structure Certificate where
  Certificate : List Bytes
  PrivateKey : Option ecdsa.PrivateKey
  deriving DecidableEq

/-- The constant `tls.RequireAndVerifyClientCert`. -/
def RequireAndVerifyClientCert : Nat := 4

/-- The type `tls.Config`, restricted to the fields the repository sets. -/
structure Config where
  Certificates : List Certificate := []
  RootCAs : Option x509.CertPool := none
  ClientCAs : Option x509.CertPool := none
  ClientAuth : Nat := 0
  deriving DecidableEq

end tls

/-- One call into the standard library, with its arguments and its result. -/
inductive Event where
  | generateKey (res : Except String ecdsa.PrivateKey)
  | now (t : Int)
  | createCertificate (template parent : x509.Certificate) (pub : ecdsa.PublicKey)
      (priv : Option ecdsa.PrivateKey) (res : Except String Bytes)
  | parseCertificate (der : Bytes) (res : Except String x509.Certificate)
  | marshalECPrivateKey (key : ecdsa.PrivateKey) (res : Except String Bytes)
  | encodeToMemory (b : pem.Block) (res : Bytes)
  | x509KeyPair (certPEMBlock keyPEMBlock : Bytes) (res : Except String tls.Certificate)
  | appendCertsFromPEM (pemCerts : Bytes) (ok : Bool)

/-- The standard-library operations the repository calls.  `W` is the state
of the outside world they read: `rand.Reader` and the wall clock. -/
structure Lib (W : Type) where
  /-- The call `ecdsa.GenerateKey(elliptic.P256(), rand.Reader)`. -/
  GenerateKey : W → Except String ecdsa.PrivateKey × W
  /-- The call `time.Now()`, in nanoseconds. -/
  Now : W → Int × W
  /-- The call `x509.CreateCertificate(rand.Reader, template, parent, pub, priv)`. -/
  CreateCertificate : x509.Certificate → x509.Certificate → ecdsa.PublicKey →
    Option ecdsa.PrivateKey → W → Except String Bytes × W
  /-- The call `x509.ParseCertificate(der)`. -/
  ParseCertificate : Bytes → Except String x509.Certificate
  /-- The call `x509.MarshalECPrivateKey(key)`. -/
  MarshalECPrivateKey : ecdsa.PrivateKey → Except String Bytes
  /-- The call `pem.EncodeToMemory(b)`. -/
  EncodeToMemory : pem.Block → Bytes
  /-- The call `pem.Decode(data)`: the first block and the remaining input. -/
  Decode : Bytes → Option pem.Block × Bytes
  /-- The call `tls.X509KeyPair(certPEMBlock, keyPEMBlock)`. -/
  X509KeyPair : Bytes → Bytes → Except String tls.Certificate
  /-- The call `pool.AppendCertsFromPEM(pemCerts)`: the new pool and `ok`. -/
  AppendCertsFromPEM : x509.CertPool → Bytes → x509.CertPool × Bool

namespace authority

/-- The struct `authority.Certificate`. -/
structure Certificate where
  privateKey : Option ecdsa.PrivateKey
  certificateDER : Bytes
  privateDER : Bytes
  CertificatePEM : Bytes
  PrivatePEM : Bytes
  deriving DecidableEq

/-- How a call of an issuance function ends: it returns the Go pair
`(*Certificate, error)`, or it dereferences a nil `*Certificate` argument. -/
inductive Result where
  | returned (cert : Option Certificate) (err : Option String)
  | nilDereference
  deriving DecidableEq

/-- The returned certificate pointer (nil when the call did not return). -/
def Result.cert : Result → Option Certificate
  | .returned c _ => c
  | .nilDereference => none

/-- The returned error (nil when the call did not return). -/
def Result.err : Result → Option String
  | .returned _ e => e
  | .nilDereference => none

/-- The call returned a certificate and a nil error. -/
def Result.succeeded : Result → Bool
  | .returned (some _) none => true
  | _ => false

/-- The call returned a nil certificate and a non-nil error. -/
def Result.failed : Result → Bool
  | .returned none (some _) => true
  | _ => false

/-- A finished call: its result, the world it left and the library calls it made. -/
structure Run (W : Type) where
  val : Result
  world : W
  trace : List Event

/-- The literal `caTemplate` of `IssueCACrt`. -/
def caTemplate (notBefore : Int) : x509.Certificate :=
  { Subject := { CommonName := "my-ca" }
    SerialNumber := some 1
    BasicConstraintsValid := true
    IsCA := true
    NotBefore := notBefore
    NotAfter := notBefore + time.Hour
    KeyUsage := x509.KeyUsageKeyEncipherment ||| x509.KeyUsageDigitalSignature |||
      x509.KeyUsageCertSign }

/-- The literal `srvCrtTemplate` of `IssueServerCrt`. -/
def srvCrtTemplate (notBefore : Int) : x509.Certificate :=
  { Subject := { CommonName := "my-server" }
    SerialNumber := some 2
    NotBefore := notBefore
    NotAfter := notBefore + time.Hour
    DNSNames := ["localhost"]
    KeyUsage := x509.KeyUsageKeyEncipherment ||| x509.KeyUsageDigitalSignature
    ExtKeyUsage := [x509.ExtKeyUsageServerAuth] }

/-- The literal `clientTemplate` of `IssueClientCrt`. -/
def clientTemplate (notBefore : Int) : x509.Certificate :=
  { Subject := { CommonName := "my-client" }
    SerialNumber := some 3
    NotBefore := notBefore
    NotAfter := notBefore + time.Hour
    KeyUsage := x509.KeyUsageKeyEncipherment ||| x509.KeyUsageDigitalSignature
    ExtKeyUsage := [x509.ExtKeyUsageClientAuth] }

/-- The block `&pem.Block{Bytes: der, Type: "CERTIFICATE"}`. -/
def certBlock (der : Bytes) : pem.Block := { Typ := "CERTIFICATE", Headers := [], Bytes := der }

/-- The block `&pem.Block{Bytes: der, Type: "EC PRIVATE KEY"}`. -/
def keyBlock (der : Bytes) : pem.Block := { Typ := "EC PRIVATE KEY", Headers := [], Bytes := der }

/-- The function `IssueCACrt`. -/
def IssueCACrt {W : Type} (L : Lib W) (w0 : W) : Run W :=
  match L.GenerateKey w0 with
  | (.error err, w1) =>
    ⟨.returned none (some ("authority: CA generate private key: " ++ err)), w1,
      [.generateKey (.error err)]⟩
  | (.ok caPriv, w1) =>
    let notBefore := (L.Now w1).1
    let w2 := (L.Now w1).2
    match L.CreateCertificate (caTemplate notBefore) (caTemplate notBefore)
        caPriv.Public (some caPriv) w2 with
    | (.error err, w3) =>
      ⟨.returned none (some ("authority: CA create x509 certificate: " ++ err)), w3,
        [.generateKey (.ok caPriv), .now notBefore,
         .createCertificate (caTemplate notBefore) (caTemplate notBefore)
           caPriv.Public (some caPriv) (.error err)]⟩
    | (.ok caCertDER, w3) =>
      match L.MarshalECPrivateKey caPriv with
      | .error err =>
        ⟨.returned none (some ("authority: CA marshal ec private key: " ++ err)), w3,
          [.generateKey (.ok caPriv), .now notBefore,
           .createCertificate (caTemplate notBefore) (caTemplate notBefore)
             caPriv.Public (some caPriv) (.ok caCertDER),
           .marshalECPrivateKey caPriv (.error err)]⟩
      | .ok caPrivDER =>
        let caCertPEM := L.EncodeToMemory (certBlock caCertDER)
        let caPrivPEM := L.EncodeToMemory (keyBlock caPrivDER)
        ⟨.returned (some
            { privateKey := some caPriv
              certificateDER := caCertDER
              privateDER := caPrivDER
              CertificatePEM := caCertPEM
              PrivatePEM := caPrivPEM }) none, w3,
          [.generateKey (.ok caPriv), .now notBefore,
           .createCertificate (caTemplate notBefore) (caTemplate notBefore)
             caPriv.Public (some caPriv) (.ok caCertDER),
           .marshalECPrivateKey caPriv (.ok caPrivDER),
           .encodeToMemory (certBlock caCertDER) caCertPEM,
           .encodeToMemory (keyBlock caPrivDER) caPrivPEM]⟩

/-- The function `IssueServerCrt`. -/
def IssueServerCrt {W : Type} (L : Lib W) (CACertificate : Option Certificate) (w0 : W) :
    Run W :=
  match CACertificate with
  | none => ⟨.nilDereference, w0, []⟩
  | some CA =>
    match L.ParseCertificate CA.certificateDER with
    | .error err =>
      ⟨.returned none (some ("authority: Server parse certificate: " ++ err)), w0,
        [.parseCertificate CA.certificateDER (.error err)]⟩
    | .ok caCert =>
      match L.GenerateKey w0 with
      | (.error err, w1) =>
        ⟨.returned none (some ("authority: Server generate private key: " ++ err)), w1,
          [.parseCertificate CA.certificateDER (.ok caCert), .generateKey (.error err)]⟩
      | (.ok srvPrivKey, w1) =>
        let notBefore := (L.Now w1).1
        let w2 := (L.Now w1).2
        match L.CreateCertificate (srvCrtTemplate notBefore) caCert srvPrivKey.Public
            CA.privateKey w2 with
        | (.error err, w3) =>
          ⟨.returned none (some ("authority: Server create certificate: " ++ err)), w3,
            [.parseCertificate CA.certificateDER (.ok caCert), .generateKey (.ok srvPrivKey),
             .now notBefore,
             .createCertificate (srvCrtTemplate notBefore) caCert srvPrivKey.Public
               CA.privateKey (.error err)]⟩
        | (.ok srvCrtDER, w3) =>
          match L.MarshalECPrivateKey srvPrivKey with
          | .error err =>
            ⟨.returned none (some ("authority: Server marshal ec private key: " ++ err)), w3,
              [.parseCertificate CA.certificateDER (.ok caCert),
               .generateKey (.ok srvPrivKey), .now notBefore,
               .createCertificate (srvCrtTemplate notBefore) caCert srvPrivKey.Public
                 CA.privateKey (.ok srvCrtDER),
               .marshalECPrivateKey srvPrivKey (.error err)]⟩
          | .ok srvPrivKeyDER =>
            let srvCertPEM := L.EncodeToMemory (certBlock srvCrtDER)
            let srvPrivPEM := L.EncodeToMemory (keyBlock srvPrivKeyDER)
            ⟨.returned (some
                { privateKey := some srvPrivKey
                  certificateDER := srvCrtDER
                  privateDER := srvPrivKeyDER
                  CertificatePEM := srvCertPEM
                  PrivatePEM := srvPrivPEM }) none, w3,
              [.parseCertificate CA.certificateDER (.ok caCert),
               .generateKey (.ok srvPrivKey), .now notBefore,
               .createCertificate (srvCrtTemplate notBefore) caCert srvPrivKey.Public
                 CA.privateKey (.ok srvCrtDER),
               .marshalECPrivateKey srvPrivKey (.ok srvPrivKeyDER),
               .encodeToMemory (certBlock srvCrtDER) srvCertPEM,
               .encodeToMemory (keyBlock srvPrivKeyDER) srvPrivPEM]⟩

/-- The function `IssueClientCrt`. -/
def IssueClientCrt {W : Type} (L : Lib W) (CACertificate : Option Certificate) (w0 : W) :
    Run W :=
  match CACertificate with
  | none => ⟨.nilDereference, w0, []⟩
  | some CA =>
    match L.ParseCertificate CA.certificateDER with
    | .error err =>
      ⟨.returned none (some ("authority: Client parse certificate: " ++ err)), w0,
        [.parseCertificate CA.certificateDER (.error err)]⟩
    | .ok caCert =>
      match L.GenerateKey w0 with
      | (.error err, w1) =>
        ⟨.returned none (some ("authority: Client generate private key: " ++ err)), w1,
          [.parseCertificate CA.certificateDER (.ok caCert), .generateKey (.error err)]⟩
      | (.ok clientPrivKey, w1) =>
        let notBefore := (L.Now w1).1
        let w2 := (L.Now w1).2
        match L.CreateCertificate (clientTemplate notBefore) caCert clientPrivKey.Public
            CA.privateKey w2 with
        | (.error err, w3) =>
          ⟨.returned none (some ("authority: Client create certificate: " ++ err)), w3,
            [.parseCertificate CA.certificateDER (.ok caCert),
             .generateKey (.ok clientPrivKey), .now notBefore,
             .createCertificate (clientTemplate notBefore) caCert clientPrivKey.Public
               CA.privateKey (.error err)]⟩
        | (.ok clientCertDER, w3) =>
          match L.MarshalECPrivateKey clientPrivKey with
          | .error err =>
            ⟨.returned none (some ("authority: Client marshal certificate: " ++ err)), w3,
              [.parseCertificate CA.certificateDER (.ok caCert),
               .generateKey (.ok clientPrivKey), .now notBefore,
               .createCertificate (clientTemplate notBefore) caCert clientPrivKey.Public
                 CA.privateKey (.ok clientCertDER),
               .marshalECPrivateKey clientPrivKey (.error err)]⟩
          | .ok clientPrivDER =>
            let clientCertPEM := L.EncodeToMemory (certBlock clientCertDER)
            let clientPrivPEM := L.EncodeToMemory (keyBlock clientPrivDER)
            ⟨.returned (some
                { privateKey := some clientPrivKey
                  certificateDER := clientCertDER
                  privateDER := clientPrivDER
                  CertificatePEM := clientCertPEM
                  PrivatePEM := clientPrivPEM }) none, w3,
              [.parseCertificate CA.certificateDER (.ok caCert),
               .generateKey (.ok clientPrivKey), .now notBefore,
               .createCertificate (clientTemplate notBefore) caCert clientPrivKey.Public
                 CA.privateKey (.ok clientCertDER),
               .marshalECPrivateKey clientPrivKey (.ok clientPrivDER),
               .encodeToMemory (certBlock clientCertDER) clientCertPEM,
               .encodeToMemory (keyBlock clientPrivDER) clientPrivPEM]⟩

end authority

/-- How the modelled part of `main` (lines 15 to 62) ends: `log.Fatalln(err)`
prints `err` and exits with status 1, a nil pointer is dereferenced, or both
transport configurations are built and `main` goes on to serve and connect. -/
inductive MainResult where
  | fatal (msg : String)
  | nilDereference
  | configured (client : tls.Config) (srv : tls.Config)
  deriving DecidableEq

/-- Both transport configurations were built. -/
def MainResult.isConfigured : MainResult → Bool
  | .configured _ _ => true
  | _ => false

/-- A finished run of `main`: how it ended, the world it left and the library
calls it made. -/
structure MainRun (W : Type) where
  val : MainResult
  world : W
  trace : List Event

/-- The `tls.Config` of the `http.Client` built by `main`. -/
def clientConfig (clientTLSCert : tls.Certificate) (certPool : x509.CertPool) : tls.Config :=
  { Certificates := [clientTLSCert]
    RootCAs := some certPool }

/-- The `tls.Config` of the `http.Server` built by `main`. -/
def serverConfig (srvTLSCert : tls.Certificate) (certPool : x509.CertPool) : tls.Config :=
  { ClientAuth := tls.RequireAndVerifyClientCert
    ClientCAs := some certPool
    Certificates := [srvTLSCert] }

/-- The function `main`, up to the construction of the client and the server. -/
def main {W : Type} (L : Lib W) (w0 : W) : MainRun W :=
  let r1 := authority.IssueCACrt L w0
  match r1.val with
  | .nilDereference => ⟨.nilDereference, r1.world, r1.trace⟩
  | .returned _ (some err) => ⟨.fatal err, r1.world, r1.trace⟩
  | .returned caCert none =>
    let r2 := authority.IssueServerCrt L caCert r1.world
    match r2.val with
    | .nilDereference => ⟨.nilDereference, r2.world, r1.trace ++ r2.trace⟩
    | .returned _ (some err) => ⟨.fatal err, r2.world, r1.trace ++ r2.trace⟩
    | .returned srvCert none =>
      let r3 := authority.IssueClientCrt L caCert r2.world
      match r3.val with
      | .nilDereference => ⟨.nilDereference, r3.world, r1.trace ++ r2.trace ++ r3.trace⟩
      | .returned _ (some err) => ⟨.fatal err, r3.world, r1.trace ++ r2.trace ++ r3.trace⟩
      | .returned clientCert none =>
        match srvCert with
        | none => ⟨.nilDereference, r3.world, r1.trace ++ r2.trace ++ r3.trace⟩
        | some srv =>
          match L.X509KeyPair srv.CertificatePEM srv.PrivatePEM with
          | .error err =>
            ⟨.fatal err, r3.world, r1.trace ++ r2.trace ++ r3.trace ++
              [.x509KeyPair srv.CertificatePEM srv.PrivatePEM (.error err)]⟩
          | .ok srvTLSCert =>
            match clientCert with
            | none =>
              ⟨.nilDereference, r3.world, r1.trace ++ r2.trace ++ r3.trace ++
                [.x509KeyPair srv.CertificatePEM srv.PrivatePEM (.ok srvTLSCert)]⟩
            | some client =>
              match L.X509KeyPair client.CertificatePEM client.PrivatePEM with
              | .error err =>
                ⟨.fatal err, r3.world, r1.trace ++ r2.trace ++ r3.trace ++
                  [.x509KeyPair srv.CertificatePEM srv.PrivatePEM (.ok srvTLSCert),
                   .x509KeyPair client.CertificatePEM client.PrivatePEM (.error err)]⟩
              | .ok clientTLSCert =>
                match caCert with
                | none =>
                  ⟨.nilDereference, r3.world, r1.trace ++ r2.trace ++ r3.trace ++
                    [.x509KeyPair srv.CertificatePEM srv.PrivatePEM (.ok srvTLSCert),
                     .x509KeyPair client.CertificatePEM client.PrivatePEM (.ok clientTLSCert)]⟩
                | some ca =>
                  let certPool := (L.AppendCertsFromPEM x509.NewCertPool ca.CertificatePEM).1
                  let ok := (L.AppendCertsFromPEM x509.NewCertPool ca.CertificatePEM).2
                  ⟨.configured (clientConfig clientTLSCert certPool)
                      (serverConfig srvTLSCert certPool), r3.world,
                    r1.trace ++ r2.trace ++ r3.trace ++
                      [.x509KeyPair srv.CertificatePEM srv.PrivatePEM (.ok srvTLSCert),
                       .x509KeyPair client.CertificatePEM client.PrivatePEM
                         (.ok clientTLSCert),
                       .appendCertsFromPEM ca.CertificatePEM ok]⟩

/-!
## A reference instance of the library

`RefLib` runs the code on concrete inputs.  Keys and signatures are small
stand-ins for P-256; certificates and keys use a compact tag-and-length byte
format instead of ASN.1 DER; PEM is the textual format of `encoding/pem`
(base64, lines of 64 characters, `BEGIN`/`END` lines) for blocks without
headers.  `CreateCertificate` makes the checks of `x509.CreateCertificate`:
a serial number is present and not negative, and the signing key matches the
public key of the parent when the parent carries one; like the Go function it
does not look at the parent's `IsCA` flag.
-/

namespace RefLib

/-- The outside world: the bytes `rand.Reader` will deliver and the clock. -/
structure World where
  entropy : List Nat
  clock : Int
  deriving DecidableEq

/-- The byte with the given value (modulo 256). -/
def byte (n : Nat) : Byte := ⟨n % 256, Nat.mod_lt _ (by decide)⟩

/-- The bytes of an ASCII string. -/
def strBytes (s : String) : Bytes := s.toList.map (fun c => byte c.toNat)

/-- The string whose characters are the given bytes. -/
def bytesStr (bs : Bytes) : String := String.mk (bs.map (fun b => Char.ofNat b.val))

/-- The line feed. -/
def nl : Byte := byte 10

/-- The dash. -/
def dash : Byte := byte 45

/-- The base64 padding character. -/
def pad : Byte := byte 61

/-- The base64 character of a six-bit value. -/
def enc (n : Nat) : Byte :=
  if n < 26 then byte (65 + n)
  else if n < 52 then byte (71 + n)
  else if n < 62 then byte (n - 4)
  else if n = 62 then byte 43
  else byte 47

/-- The six-bit value of a base64 character. -/
def dec (c : Byte) : Option Nat :=
  if 65 ≤ c.val ∧ c.val ≤ 90 then some (c.val - 65)
  else if 97 ≤ c.val ∧ c.val ≤ 122 then some (c.val - 71)
  else if 48 ≤ c.val ∧ c.val ≤ 57 then some (c.val + 4)
  else if c.val = 43 then some 62
  else if c.val = 47 then some 63
  else none

/-- Standard base64 with padding. -/
def b64Encode : Bytes → Bytes
  | [] => []
  | [a] => [enc (a.val / 4), enc (a.val % 4 * 16), pad, pad]
  | [a, b] => [enc (a.val / 4), enc (a.val % 4 * 16 + b.val / 16), enc (b.val % 16 * 4), pad]
  | a :: b :: c :: rest =>
    enc (a.val / 4) :: enc (a.val % 4 * 16 + b.val / 16) ::
      enc (b.val % 16 * 4 + c.val / 64) :: enc (c.val % 64) :: b64Encode rest

/-- The inverse of `b64Encode`; padding is accepted in the last group only. -/
def b64Decode : Bytes → Option Bytes
  | c0 :: c1 :: c2 :: c3 :: rest =>
    match dec c0, dec c1 with
    | some s0, some s1 =>
      if c2 = pad then
        if c3 = pad ∧ rest = [] then some [byte (s0 * 4 + s1 / 16)] else none
      else
        match dec c2 with
        | none => none
        | some s2 =>
          if c3 = pad then
            if rest = [] then some [byte (s0 * 4 + s1 / 16), byte (s1 % 16 * 16 + s2 / 4)]
            else none
          else
            match dec c3 with
            | none => none
            | some s3 =>
              match b64Decode rest with
              | none => none
              | some tl =>
                some (byte (s0 * 4 + s1 / 16) :: byte (s1 % 16 * 16 + s2 / 4) ::
                  byte (s2 % 4 * 64 + s3) :: tl)
    | _, _ => none
  | [] => some []
  | _ => none

/-- The line breaker of `encoding/pem`: a line feed after every 64th character
and after a last, shorter line; `col` characters are already on the line. -/
def wrap : Nat → Bytes → Bytes
  | col, [] => if col = 0 then [] else [nl]
  | col, c :: cs => if col + 1 = 64 then c :: nl :: wrap 0 cs else c :: wrap (col + 1) cs

/-- The bytes `-----BEGIN `. -/
def pemStart : Bytes := strBytes "-----BEGIN "

/-- The bytes `-----END `. -/
def pemEnd : Bytes := strBytes "-----END "

/-- The bytes `-----` followed by a line feed. -/
def pemEndOfLine : Bytes := strBytes "-----" ++ [nl]

/-- The function `pem.EncodeToMemory` for a block without headers. -/
def EncodeToMemory (b : pem.Block) : Bytes :=
  pemStart ++ strBytes b.Typ ++ pemEndOfLine ++ wrap 0 (b64Encode b.Bytes) ++
    pemEnd ++ strBytes b.Typ ++ pemEndOfLine

/-- The input without the given leading bytes, when it starts with them. -/
def dropHead : Bytes → Bytes → Option Bytes
  | [], data => some data
  | _ :: _, [] => none
  | p :: ps, d :: ds => if p = d then dropHead ps ds else none

/-- The input up to the first occurrence of `c`, and the input from there on. -/
def takeUntil (c : Byte) : Bytes → Bytes × Bytes
  | [] => ([], [])
  | x :: xs => if x = c then ([], x :: xs) else ((takeUntil c xs).1.cons x, (takeUntil c xs).2)

/-- The function `pem.Decode` on input that starts with a block without
headers: the type line, the base64 body up to the first dash, and an `END`
line of the same type.  Other input yields no block. -/
def Decode (data : Bytes) : Option pem.Block × Bytes :=
  match dropHead pemStart data with
  | none => (none, data)
  | some afterStart =>
    match takeUntil nl afterStart with
    | (typeLine, lineRest) =>
      let typ := typeLine.take (typeLine.length - 5)
      if typeLine.drop (typeLine.length - 5) ≠ strBytes "-----" then (none, data)
      else
        match lineRest with
        | [] => (none, data)
        | _ :: body =>
          match takeUntil dash body with
          | (b64, trailer) =>
            match dropHead (pemEnd ++ typ ++ pemEndOfLine) trailer with
            | none => (none, data)
            | some rest =>
              match b64Decode (b64.filter (fun c => c != nl)) with
              | none => (none, data)
              | some bytes => (some { Typ := bytesStr typ, Headers := [], Bytes := bytes }, rest)

/-- The stand-in for a P-256 key pair derived from one unit of entropy. -/
def keyOf (r : Nat) : ecdsa.PrivateKey :=
  { D := r % 65520 + 1
    PublicKey := { X := (r % 65520 + 1) * 7919 % 65521, Y := (r % 65520 + 1) * 104729 % 65521 } }

/-- The function `ecdsa.GenerateKey`: it fails when `rand.Reader` is exhausted. -/
def GenerateKey (w : World) : Except String ecdsa.PrivateKey × World :=
  match w.entropy with
  | [] => (.error "EOF", w)
  | r :: rest => (.ok (keyOf r), { w with entropy := rest })

/-- The function `time.Now`: the clock advances by a millisecond per reading. -/
def Now (w : World) : Int × World := (w.clock, { w with clock := w.clock + 1000000 })

/-- The big-endian bytes of `n`, `k` of them. -/
def be : Nat → Nat → Bytes
  | 0, _ => []
  | k + 1, n => byte (n / 256 ^ k) :: be k n

/-- The number with the given big-endian bytes. -/
def unbe (bs : Bytes) : Nat := bs.foldl (fun acc b => acc * 256 + b.val) 0

/-- A string field: its length, then its bytes. -/
def putStr (s : String) : Bytes := byte s.length :: strBytes s

/-- The fields of a certificate that are signed. -/
def tbsBytes (template : x509.Certificate) (issuer : pkix.Name) (serial : Nat)
    (pub : ecdsa.PublicKey) : Bytes :=
  putStr template.Subject.CommonName ++ putStr issuer.CommonName ++ [byte serial] ++
    [byte ((if template.BasicConstraintsValid then 1 else 0) + (if template.IsCA then 2 else 0))] ++
    be 8 (template.NotBefore / 1000000000).toNat ++ be 8 (template.NotAfter / 1000000000).toNat ++
    [byte template.DNSNames.length] ++ (template.DNSNames.map putStr).flatten ++
    be 2 template.KeyUsage ++
    [byte template.ExtKeyUsage.length] ++ template.ExtKeyUsage.map byte ++
    be 2 pub.X ++ be 2 pub.Y

/-- The stand-in for an ECDSA signature over `tbs`. -/
def signature (tbs : Bytes) (priv : ecdsa.PrivateKey) (nonce : Nat) : Nat :=
  ((tbs.map Fin.val).sum * priv.D + nonce) % 65521

/-- Every string field fits the one-byte length of the reference format. -/
def fits (template parent : x509.Certificate) : Bool :=
  decide (template.Subject.CommonName.length < 256) &&
    decide (parent.Subject.CommonName.length < 256) &&
    decide (template.DNSNames.length < 256) &&
    template.DNSNames.all (fun n => decide (n.length < 256)) &&
    decide (template.ExtKeyUsage.length < 256)

/-- The function `x509.CreateCertificate`: one unit of entropy is read for
the signature.  A nil signing key, on which the Go function would fault, is
reported as an error. -/
def CreateCertificate (template parent : x509.Certificate) (pub : ecdsa.PublicKey)
    (priv : Option ecdsa.PrivateKey) (w : World) : Except String Bytes × World :=
  match priv with
  | none => (.error "x509: certificate private key does not implement crypto.Signer", w)
  | some key =>
    match template.SerialNumber with
    | none => (.error "x509: no SerialNumber given", w)
    | some serial =>
      if serial < 0 then (.error "x509: serial number must be positive", w)
      else if parent.PublicKey ≠ none ∧ parent.PublicKey ≠ some key.Public then
        (.error "x509: provided PrivateKey does not match the PublicKey of parent", w)
      else if serial ≥ 256 ∨ fits template parent = false then
        (.error "x509: field too large for the reference format", w)
      else
        match w.entropy with
        | [] => (.error "EOF", w)
        | nonce :: rest =>
          let tbs := tbsBytes template parent.Subject serial.toNat pub
          (.ok (byte 48 :: (tbs ++ be 2 (signature tbs key nonce))), { w with entropy := rest })

/-- A reader of the reference format: the value read and the remaining input. -/
abbrev Reader (α : Type) := Bytes → Option (α × Bytes)

/-- Read `k` bytes. -/
def getBytes (k : Nat) : Reader Bytes := fun bs =>
  if bs.length < k then none else some (bs.take k, bs.drop k)

/-- Read a big-endian number of `k` bytes. -/
def getNum (k : Nat) : Reader Nat := fun bs =>
  match getBytes k bs with
  | none => none
  | some (v, rest) => some (unbe v, rest)

/-- Read a string field. -/
def getStr : Reader String := fun bs =>
  match getNum 1 bs with
  | none => none
  | some (len, rest) =>
    match getBytes len rest with
    | none => none
    | some (v, rest2) => some (bytesStr v, rest2)

/-- Read `k` fields with the same reader. -/
def getMany {α : Type} (r : Reader α) : Nat → Reader (List α)
  | 0 => fun bs => some ([], bs)
  | k + 1 => fun bs =>
    match r bs with
    | none => none
    | some (v, rest) =>
      match getMany r k rest with
      | none => none
      | some (vs, rest2) => some (v :: vs, rest2)

/-- The function `x509.ParseCertificate` on the reference format. -/
def ParseCertificate (der : Bytes) : Except String x509.Certificate :=
  match der with
  | [] => .error "x509: malformed certificate"
  | tag :: body =>
    if tag ≠ byte 48 then .error "x509: malformed certificate"
    else
      let parsed : Option x509.Certificate :=
        match getStr body with
        | none => none
        | some (subject, r1) =>
        match getStr r1 with
        | none => none
        | some (issuer, r2) =>
        match getNum 1 r2 with
        | none => none
        | some (serial, r3) =>
        match getNum 1 r3 with
        | none => none
        | some (flags, r4) =>
        match getNum 8 r4 with
        | none => none
        | some (notBefore, r5) =>
        match getNum 8 r5 with
        | none => none
        | some (notAfter, r6) =>
        match getNum 1 r6 with
        | none => none
        | some (nDNS, r7) =>
        match getMany getStr nDNS r7 with
        | none => none
        | some (dnsNames, r8) =>
        match getNum 2 r8 with
        | none => none
        | some (keyUsage, r9) =>
        match getNum 1 r9 with
        | none => none
        | some (nEKU, r10) =>
        match getMany (getNum 1) nEKU r10 with
        | none => none
        | some (extKeyUsage, r11) =>
        match getNum 2 r11 with
        | none => none
        | some (x, r12) =>
        match getNum 2 r12 with
        | none => none
        | some (y, r13) =>
        match getNum 2 r13 with
        | none => none
        | some (_, r14) =>
          if r14 ≠ [] ∨ flags ≥ 4 then none
          else some
            { Subject := { CommonName := subject }
              Issuer := { CommonName := issuer }
              SerialNumber := some (Int.ofNat serial)
              BasicConstraintsValid := decide (flags % 2 = 1)
              IsCA := decide (flags / 2 = 1)
              NotBefore := Int.ofNat notBefore * 1000000000
              NotAfter := Int.ofNat notAfter * 1000000000
              DNSNames := dnsNames
              KeyUsage := keyUsage
              ExtKeyUsage := extKeyUsage
              PublicKey := some { X := x, Y := y } }
      match parsed with
      | none => .error "x509: malformed certificate"
      | some c => .ok c

/-- The function `x509.MarshalECPrivateKey` on the reference format. -/
def MarshalECPrivateKey (key : ecdsa.PrivateKey) : Except String Bytes :=
  if key.D ≥ 65536 ∨ key.PublicKey.X ≥ 65536 ∨ key.PublicKey.Y ≥ 65536 then
    .error "x509: unknown elliptic curve"
  else .ok (byte 49 :: (be 2 key.D ++ be 2 key.PublicKey.X ++ be 2 key.PublicKey.Y))

/-- The function `x509.ParseECPrivateKey` on the reference format. -/
def ParseECPrivateKey (der : Bytes) : Except String ecdsa.PrivateKey :=
  match der with
  | [t, d1, d0, x1, x0, y1, y0] =>
    if t = byte 49 then
      .ok { D := unbe [d1, d0], PublicKey := { X := unbe [x1, x0], Y := unbe [y1, y0] } }
    else .error "x509: failed to parse EC private key"
  | _ => .error "x509: failed to parse EC private key"

/-- The function `tls.X509KeyPair` for one certificate block and one key block. -/
def X509KeyPair (certPEMBlock keyPEMBlock : Bytes) : Except String tls.Certificate :=
  match Decode certPEMBlock with
  | (none, _) => .error "tls: failed to find any PEM data in certificate input"
  | (some certDERBlock, _) =>
    if certDERBlock.Typ ≠ "CERTIFICATE" then
      .error "tls: failed to find certificate PEM data in certificate input"
    else
      match Decode keyPEMBlock with
      | (none, _) => .error "tls: failed to find any PEM data in key input"
      | (some keyDERBlock, _) =>
        if keyDERBlock.Typ ≠ "EC PRIVATE KEY" then
          .error "tls: failed to find PEM block with type ending in PRIVATE KEY in key input"
        else
          match ParseCertificate certDERBlock.Bytes with
          | .error err => .error err
          | .ok x509Cert =>
            match ParseECPrivateKey keyDERBlock.Bytes with
            | .error err => .error err
            | .ok priv =>
              if x509Cert.PublicKey = some priv.Public then
                .ok { Certificate := [certDERBlock.Bytes], PrivateKey := some priv }
              else .error "tls: private key does not match public key"

/-- The loop of `(*CertPool).AppendCertsFromPEM`; `fuel` bounds the number of
blocks read. -/
def appendLoop : Nat → x509.CertPool → Bool → Bytes → x509.CertPool × Bool
  | 0, pool, ok, _ => (pool, ok)
  | fuel + 1, pool, ok, pemCerts =>
    if pemCerts = [] then (pool, ok)
    else
      match Decode pemCerts with
      | (none, _) => (pool, ok)
      | (some block, rest) =>
        if block.Typ ≠ "CERTIFICATE" ∨ block.Headers ≠ [] then appendLoop fuel pool ok rest
        else
          match ParseCertificate block.Bytes with
          | .error _ => appendLoop fuel pool ok rest
          | .ok cert => appendLoop fuel (pool ++ [cert]) true rest

/-- The method `(*CertPool).AppendCertsFromPEM`. -/
def AppendCertsFromPEM (pool : x509.CertPool) (pemCerts : Bytes) : x509.CertPool × Bool :=
  appendLoop (pemCerts.length + 1) pool false pemCerts

/-- The reference library. -/
def lib : Lib World :=
  { GenerateKey := GenerateKey
    Now := Now
    CreateCertificate := CreateCertificate
    ParseCertificate := ParseCertificate
    MarshalECPrivateKey := MarshalECPrivateKey
    EncodeToMemory := EncodeToMemory
    Decode := Decode
    X509KeyPair := X509KeyPair
    AppendCertsFromPEM := AppendCertsFromPEM }

/-- A world with plenty of entropy. -/
def w0 : World := { entropy := [11, 22, 33, 44, 55, 66, 77, 88, 99, 110], clock := 1700000000000000000 }

/-- The root issued in the world `w0`. -/
def rootRun : authority.Run World := authority.IssueCACrt lib w0

/-- The server leaf issued under that root. -/
def serverRun : authority.Run World :=
  authority.IssueServerCrt lib rootRun.val.cert rootRun.world

/-- The client leaf issued under that root, after the server leaf. -/
def clientRun : authority.Run World :=
  authority.IssueClientCrt lib rootRun.val.cert serverRun.world

/-- A second server leaf issued under the same root. -/
def secondServerRun : authority.Run World :=
  authority.IssueServerCrt lib rootRun.val.cert clientRun.world

/-- A server leaf issued with the first server leaf, not the root, as authority. -/
def serverUnderLeafRun : authority.Run World :=
  authority.IssueServerCrt lib serverRun.val.cert clientRun.world

/-- The zero value `authority.Certificate{}`: its certificate bytes do not parse. -/
def zeroCertificate : authority.Certificate :=
  { privateKey := none, certificateDER := [], privateDER := [], CertificatePEM := [],
    PrivatePEM := [] }

/-- The certificate a run returned (the zero value when it returned none). -/
def certOf (r : authority.Run World) : authority.Certificate :=
  match r.val.cert with
  | some c => c
  | none => zeroCertificate

/-- The root certificate with one byte of its DER changed, so that it no longer parses. -/
def corruptedRoot : authority.Certificate :=
  { certOf rootRun with certificateDER := byte 49 :: (certOf rootRun).certificateDER.drop 1 }

/-- A world whose entropy runs out during the server leaf. -/
def wShort : World := { entropy := [11, 22, 33], clock := 1700000000000000000 }

end RefLib

/-!
## Reading a trace
-/

/-- The arguments and the result of one `x509.CreateCertificate` call. -/
structure SignCall where
  template : x509.Certificate
  parent : x509.Certificate
  pub : ecdsa.PublicKey
  priv : Option ecdsa.PrivateKey
  res : Except String Bytes

/-- The `x509.CreateCertificate` calls of a trace, in order. -/
def signCalls : List Event → List SignCall
  | [] => []
  | .createCertificate template parent pub priv res :: es =>
    ⟨template, parent, pub, priv, res⟩ :: signCalls es
  | _ :: es => signCalls es

/-- The private keys the `ecdsa.GenerateKey` calls of a trace returned, in order. -/
def generatedKeys : List Event → List ecdsa.PrivateKey
  | [] => []
  | .generateKey (.ok key) :: es => key :: generatedKeys es
  | _ :: es => generatedKeys es

/-- The first issuance call of `main`: the root. -/
def mainRoot {W : Type} (L : Lib W) (w0 : W) : authority.Run W := authority.IssueCACrt L w0

/-- The second issuance call of `main`: the server leaf under the root. -/
def mainServer {W : Type} (L : Lib W) (w0 : W) : authority.Run W :=
  authority.IssueServerCrt L (mainRoot L w0).val.cert (mainRoot L w0).world

/-- The third issuance call of `main`: the client leaf under the root. -/
def mainClient {W : Type} (L : Lib W) (w0 : W) : authority.Run W :=
  authority.IssueClientCrt L (mainRoot L w0).val.cert (mainServer L w0).world

/-- The library calls of the three issuance calls of `main`, in order. -/
def issuanceTrace {W : Type} (L : Lib W) (w0 : W) : List Event :=
  (mainRoot L w0).trace ++ (mainServer L w0).trace ++ (mainClient L w0).trace

/-!
## Contracts of the standard library
-/

/-- The contract of `encoding/pem` for the two block types the repository
writes: decoding what `EncodeToMemory` produced yields the block and no rest. -/
def PemRoundTrip {W : Type} (L : Lib W) : Prop :=
  ∀ der : Bytes,
    L.Decode (L.EncodeToMemory (authority.certBlock der)) = (some (authority.certBlock der), []) ∧
    L.Decode (L.EncodeToMemory (authority.keyBlock der)) = (some (authority.keyBlock der), [])

/-- The contract of `AppendCertsFromPEM` on input that is one headerless
`CERTIFICATE` block whose bytes parse: the certificate is added and `ok` is true. -/
def AppendAddsParsed {W : Type} (L : Lib W) : Prop :=
  ∀ (pool : x509.CertPool) (data : Bytes) (block : pem.Block) (cert : x509.Certificate),
    L.Decode data = (some block, []) → block.Typ = "CERTIFICATE" → block.Headers = [] →
    L.ParseCertificate block.Bytes = .ok cert →
    L.AppendCertsFromPEM pool data = (pool ++ [cert], true)

/-!
## The reference library meets the contracts
-/

namespace RefLib

theorem dec_enc : ∀ n, n < 64 → dec (enc n) = some n := by decide

theorem enc_ne_pad : ∀ n, n < 64 → enc n ≠ pad := by decide

theorem enc_ne_nl_dash : ∀ n, n < 64 → enc n ≠ nl ∧ enc n ≠ dash := by decide

theorem byte_eq (a : Byte) (n : Nat) (h : n = a.val) : byte n = a := by
  apply Fin.ext
  simp only [byte, h]
  exact Nat.mod_eq_of_lt a.isLt

theorem b64Decode_b64Encode (bs : Bytes) : b64Decode (b64Encode bs) = some bs := by
  induction bs using b64Encode.induct with
  | case1 => simp [b64Encode, b64Decode]
  | case2 a =>
    have ha := a.isLt
    simp only [b64Encode, b64Decode]
    rw [dec_enc _ (by omega), dec_enc _ (by omega)]
    simp
    exact byte_eq a _ (by omega)
  | case3 a b =>
    have ha := a.isLt
    have hb := b.isLt
    simp only [b64Encode, b64Decode]
    rw [dec_enc _ (by omega), dec_enc _ (by omega)]
    simp only [enc_ne_pad _ (show b.val % 16 * 4 < 64 by omega), if_false]
    rw [dec_enc _ (by omega)]
    simp
    exact ⟨byte_eq a _ (by omega), byte_eq b _ (by omega)⟩
  | case4 a b c rest ih =>
    have ha := a.isLt
    have hb := b.isLt
    have hc := c.isLt
    simp only [b64Encode, b64Decode]
    rw [dec_enc _ (by omega), dec_enc _ (by omega)]
    simp only [enc_ne_pad _ (show b.val % 16 * 4 + c.val / 64 < 64 by omega), if_false]
    rw [dec_enc _ (by omega)]
    simp only [enc_ne_pad _ (show c.val % 64 < 64 by omega), if_false]
    rw [dec_enc _ (by omega), ih]
    simp
    exact ⟨byte_eq a _ (by omega), byte_eq b _ (by omega), byte_eq c _ (by omega)⟩

theorem b64Encode_chars (bs : Bytes) : ∀ c ∈ b64Encode bs, c ≠ nl ∧ c ≠ dash := by
  induction bs using b64Encode.induct with
  | case1 => simp [b64Encode]
  | case2 a =>
    have ha := a.isLt
    intro c hc
    simp only [b64Encode, List.mem_cons, List.mem_singleton, List.not_mem_nil, or_false] at hc
    rcases hc with rfl | rfl | rfl | rfl
    · exact enc_ne_nl_dash _ (by omega)
    · exact enc_ne_nl_dash _ (by omega)
    · decide
    · decide
  | case3 a b =>
    have ha := a.isLt
    have hb := b.isLt
    intro c hc
    simp only [b64Encode, List.mem_cons, List.mem_singleton, List.not_mem_nil, or_false] at hc
    rcases hc with rfl | rfl | rfl | rfl
    · exact enc_ne_nl_dash _ (by omega)
    · exact enc_ne_nl_dash _ (by omega)
    · exact enc_ne_nl_dash _ (by omega)
    · decide
  | case4 a b c rest ih =>
    have ha := a.isLt
    have hb := b.isLt
    have hc := c.isLt
    intro x hx
    simp only [b64Encode, List.mem_cons] at hx
    rcases hx with rfl | rfl | rfl | rfl | hx
    · exact enc_ne_nl_dash _ (by omega)
    · exact enc_ne_nl_dash _ (by omega)
    · exact enc_ne_nl_dash _ (by omega)
    · exact enc_ne_nl_dash _ (by omega)
    · exact ih x hx

theorem filter_wrap (xs : Bytes) (h : ∀ c ∈ xs, c ≠ nl) (col : Nat) :
    (wrap col xs).filter (fun c => c != nl) = xs := by
  induction xs generalizing col with
  | nil =>
    simp only [wrap]
    split <;> simp
  | cons x xs ih =>
    have hx : x ≠ nl := h x (List.mem_cons_self _ _)
    have hxs : ∀ c ∈ xs, c ≠ nl := fun c hc => h c (List.mem_cons_of_mem _ hc)
    simp only [wrap]
    split
    · simp [List.filter_cons, hx, ih hxs 0]
    · simp [List.filter_cons, hx, ih hxs (col + 1)]

theorem wrap_no_dash (xs : Bytes) (h : ∀ c ∈ xs, c ≠ dash) (col : Nat) :
    ∀ c ∈ wrap col xs, c ≠ dash := by
  induction xs generalizing col with
  | nil =>
    intro c hc
    simp only [wrap] at hc
    split at hc
    · simp at hc
    · simp only [List.mem_singleton] at hc
      subst hc
      decide
  | cons x xs ih =>
    have hx : x ≠ dash := h x (List.mem_cons_self _ _)
    have hxs : ∀ c ∈ xs, c ≠ dash := fun c hc => h c (List.mem_cons_of_mem _ hc)
    intro c hc
    simp only [wrap] at hc
    split at hc
    · simp only [List.mem_cons] at hc
      rcases hc with rfl | rfl | hc
      · exact hx
      · decide
      · exact ih hxs 0 c hc
    · simp only [List.mem_cons] at hc
      rcases hc with rfl | hc
      · exact hx
      · exact ih hxs (col + 1) c hc

theorem takeUntil_append (c : Byte) (xs ys : Bytes) (h : ∀ x ∈ xs, x ≠ c) :
    takeUntil c (xs ++ c :: ys) = (xs, c :: ys) := by
  induction xs with
  | nil => simp [takeUntil]
  | cons x xs ih =>
    have hx : x ≠ c := h x (List.mem_cons_self _ _)
    have hxs : ∀ y ∈ xs, y ≠ c := fun y hy => h y (List.mem_cons_of_mem _ hy)
    simp [takeUntil, hx, ih hxs]

theorem dropHead_append (p rest : Bytes) : dropHead p (p ++ rest) = some rest := by
  induction p with
  | nil => cases rest <;> simp [dropHead]
  | cons x xs ih => simp [dropHead, ih]

set_option maxRecDepth 100000 in
theorem dashes_no_nl : ∀ x ∈ strBytes "-----", x ≠ nl := by decide

/-- Decoding the encoding of a headerless block gives the block back and
leaves no input, for a type that is ASCII and has no line feed. -/
theorem Decode_EncodeToMemory (t : String) (bs : Bytes)
    (hnl : ∀ x ∈ strBytes t, x ≠ nl) (hstr : bytesStr (strBytes t) = t) :
    Decode (EncodeToMemory { Typ := t, Headers := [], Bytes := bs }) =
      (some { Typ := t, Headers := [], Bytes := bs }, []) := by
  have hline : ∀ x ∈ strBytes t ++ strBytes "-----", x ≠ nl := by
    intro x hx
    rcases List.mem_append.1 hx with h | h
    · exact hnl x h
    · exact dashes_no_nl x h
  have hbody : ∀ c ∈ wrap 0 (b64Encode bs), c ≠ dash :=
    wrap_no_dash _ (fun c hc => (b64Encode_chars bs c hc).2) 0
  have e1 : EncodeToMemory { Typ := t, Headers := [], Bytes := bs } =
      pemStart ++ ((strBytes t ++ strBytes "-----") ++ nl ::
        (wrap 0 (b64Encode bs) ++ dash ::
          (strBytes "----END " ++ strBytes t ++ pemEndOfLine))) := by
    simp [EncodeToMemory, pemEndOfLine, pemEnd]
    rfl
  rw [e1]
  unfold Decode
  rw [dropHead_append]
  simp only [takeUntil_append nl _ _ hline]
  have hlen : (strBytes "-----").length = 5 := by decide
  have htake : (strBytes t ++ strBytes "-----").take
      ((strBytes t ++ strBytes "-----").length - 5) = strBytes t := by
    simp [List.length_append, hlen]
  have hdrop : (strBytes t ++ strBytes "-----").drop
      ((strBytes t ++ strBytes "-----").length - 5) = strBytes "-----" := by
    simp [List.length_append, hlen]
  simp only [htake, hdrop, ne_eq, not_true_eq_false, if_false]
  simp only [takeUntil_append dash _ _ hbody]
  have e2 : dash :: (strBytes "----END " ++ strBytes t ++ pemEndOfLine) =
      (pemEnd ++ strBytes t ++ pemEndOfLine) ++ [] := by
    simp [pemEnd]
    rfl
  rw [e2, dropHead_append]
  simp only [filter_wrap _ (fun c hc => (b64Encode_chars bs c hc).1) 0, b64Decode_b64Encode, hstr]

set_option maxRecDepth 100000 in
theorem Decode_certBlock (der : Bytes) :
    Decode (EncodeToMemory (authority.certBlock der)) = (some (authority.certBlock der), []) :=
  Decode_EncodeToMemory "CERTIFICATE" der (by decide) (by decide)

set_option maxRecDepth 100000 in
theorem Decode_keyBlock (der : Bytes) :
    Decode (EncodeToMemory (authority.keyBlock der)) = (some (authority.keyBlock der), []) :=
  Decode_EncodeToMemory "EC PRIVATE KEY" der (by decide) (by decide)

/-- The reference library meets the PEM contract. -/
theorem pemRoundTrip : PemRoundTrip lib :=
  fun der => ⟨Decode_certBlock der, Decode_keyBlock der⟩

theorem Decode_nil : Decode [] = (none, []) := by decide

/-- The reference library meets the contract of `AppendCertsFromPEM`. -/
theorem appendAddsParsed : AppendAddsParsed lib := by
  intro pool data block cert hdec htyp hhdr hparse
  have hne : data ≠ [] := by
    intro h
    rw [h] at hdec
    have h2 : Decode [] = (some block, []) := hdec
    rw [Decode_nil] at h2
    simp at h2
  have hdec2 : Decode data = (some block, []) := hdec
  have hparse2 : ParseCertificate block.Bytes = .ok cert := hparse
  show AppendCertsFromPEM pool data = (pool ++ [cert], true)
  unfold AppendCertsFromPEM
  simp only [appendLoop, hne, if_false, hdec2, htyp, hhdr, hparse2, ne_eq, not_true_eq_false,
    or_self]
  cases data.length <;> simp [appendLoop]

end RefLib

/-!
## What every run of an issuance function does
-/

namespace authority

/-- A successful `IssueCACrt`: the library calls it made and what it returned. -/
theorem IssueCACrt_of_succeeded {W : Type} (L : Lib W) (w0 : W)
    (h : (IssueCACrt L w0).val.succeeded = true) :
    ∃ caPriv w1 caCertDER w3 caPrivDER,
      L.GenerateKey w0 = (.ok caPriv, w1) ∧
      L.CreateCertificate (caTemplate (L.Now w1).1) (caTemplate (L.Now w1).1) caPriv.Public
        (some caPriv) (L.Now w1).2 = (.ok caCertDER, w3) ∧
      L.MarshalECPrivateKey caPriv = .ok caPrivDER ∧
      IssueCACrt L w0 =
        ⟨.returned (some
            { privateKey := some caPriv
              certificateDER := caCertDER
              privateDER := caPrivDER
              CertificatePEM := L.EncodeToMemory (certBlock caCertDER)
              PrivatePEM := L.EncodeToMemory (keyBlock caPrivDER) }) none, w3,
          [.generateKey (.ok caPriv), .now (L.Now w1).1,
           .createCertificate (caTemplate (L.Now w1).1) (caTemplate (L.Now w1).1)
             caPriv.Public (some caPriv) (.ok caCertDER),
           .marshalECPrivateKey caPriv (.ok caPrivDER),
           .encodeToMemory (certBlock caCertDER) (L.EncodeToMemory (certBlock caCertDER)),
           .encodeToMemory (keyBlock caPrivDER) (L.EncodeToMemory (keyBlock caPrivDER))]⟩ := by
  unfold IssueCACrt at h ⊢
  rcases hg : L.GenerateKey w0 with ⟨_ | caPriv, w1⟩
  · simp [hg, Result.succeeded] at h
  · rcases hc : L.CreateCertificate (caTemplate (L.Now w1).1) (caTemplate (L.Now w1).1)
      caPriv.Public (some caPriv) (L.Now w1).2 with ⟨_ | caCertDER, w3⟩
    · simp [hg, hc, Result.succeeded] at h
    · rcases hm : L.MarshalECPrivateKey caPriv with _ | caPrivDER
      · simp [hg, hc, hm, Result.succeeded] at h
      · refine ⟨caPriv, w1, caCertDER, w3, caPrivDER, ?_⟩
        simp [hc, hm]

/-- Every `IssueCACrt` call returns a certificate and no error, or no
certificate and an error. -/
theorem IssueCACrt_returns {W : Type} (L : Lib W) (w0 : W) :
    (IssueCACrt L w0).val.succeeded = true ∨ (IssueCACrt L w0).val.failed = true := by
  unfold IssueCACrt
  rcases hg : L.GenerateKey w0 with ⟨_ | caPriv, w1⟩
  · simp [Result.failed]
  · rcases hc : L.CreateCertificate (caTemplate (L.Now w1).1) (caTemplate (L.Now w1).1)
      caPriv.Public (some caPriv) (L.Now w1).2 with ⟨_ | caCertDER, w3⟩
    · simp [hc, Result.failed]
    · rcases hm : L.MarshalECPrivateKey caPriv with _ | caPrivDER
      · simp [hc, hm, Result.failed]
      · simp [hc, hm, Result.succeeded]

/-- A successful `IssueServerCrt`: the library calls it made and what it returned. -/
theorem IssueServerCrt_of_succeeded {W : Type} (L : Lib W) (CACertificate : Option Certificate)
    (w0 : W) (h : (IssueServerCrt L CACertificate w0).val.succeeded = true) :
    ∃ CA caCert srvPrivKey w1 srvCrtDER w3 srvPrivKeyDER,
      CACertificate = some CA ∧
      L.ParseCertificate CA.certificateDER = .ok caCert ∧
      L.GenerateKey w0 = (.ok srvPrivKey, w1) ∧
      L.CreateCertificate (srvCrtTemplate (L.Now w1).1) caCert srvPrivKey.Public
        CA.privateKey (L.Now w1).2 = (.ok srvCrtDER, w3) ∧
      L.MarshalECPrivateKey srvPrivKey = .ok srvPrivKeyDER ∧
      IssueServerCrt L CACertificate w0 =
        ⟨.returned (some
            { privateKey := some srvPrivKey
              certificateDER := srvCrtDER
              privateDER := srvPrivKeyDER
              CertificatePEM := L.EncodeToMemory (certBlock srvCrtDER)
              PrivatePEM := L.EncodeToMemory (keyBlock srvPrivKeyDER) }) none, w3,
          [.parseCertificate CA.certificateDER (.ok caCert),
           .generateKey (.ok srvPrivKey), .now (L.Now w1).1,
           .createCertificate (srvCrtTemplate (L.Now w1).1) caCert srvPrivKey.Public
             CA.privateKey (.ok srvCrtDER),
           .marshalECPrivateKey srvPrivKey (.ok srvPrivKeyDER),
           .encodeToMemory (certBlock srvCrtDER) (L.EncodeToMemory (certBlock srvCrtDER)),
           .encodeToMemory (keyBlock srvPrivKeyDER)
             (L.EncodeToMemory (keyBlock srvPrivKeyDER))]⟩ := by
  unfold IssueServerCrt at h ⊢
  cases CACertificate with
  | none => simp [Result.succeeded] at h
  | some CA =>
    rcases hp : L.ParseCertificate CA.certificateDER with _ | caCert
    · simp [hp, Result.succeeded] at h
    · rcases hg : L.GenerateKey w0 with ⟨_ | srvPrivKey, w1⟩
      · simp [hp, hg, Result.succeeded] at h
      · rcases hc : L.CreateCertificate (srvCrtTemplate (L.Now w1).1) caCert srvPrivKey.Public
          CA.privateKey (L.Now w1).2 with ⟨_ | srvCrtDER, w3⟩
        · simp [hp, hg, hc, Result.succeeded] at h
        · rcases hm : L.MarshalECPrivateKey srvPrivKey with _ | srvPrivKeyDER
          · simp [hp, hg, hc, hm, Result.succeeded] at h
          · refine ⟨CA, caCert, srvPrivKey, w1, srvCrtDER, w3, srvPrivKeyDER, ?_⟩
            simp [hp, hc, hm]

/-- A successful `IssueClientCrt`: the library calls it made and what it returned. -/
theorem IssueClientCrt_of_succeeded {W : Type} (L : Lib W) (CACertificate : Option Certificate)
    (w0 : W) (h : (IssueClientCrt L CACertificate w0).val.succeeded = true) :
    ∃ CA caCert clientPrivKey w1 clientCertDER w3 clientPrivDER,
      CACertificate = some CA ∧
      L.ParseCertificate CA.certificateDER = .ok caCert ∧
      L.GenerateKey w0 = (.ok clientPrivKey, w1) ∧
      L.CreateCertificate (clientTemplate (L.Now w1).1) caCert clientPrivKey.Public
        CA.privateKey (L.Now w1).2 = (.ok clientCertDER, w3) ∧
      L.MarshalECPrivateKey clientPrivKey = .ok clientPrivDER ∧
      IssueClientCrt L CACertificate w0 =
        ⟨.returned (some
            { privateKey := some clientPrivKey
              certificateDER := clientCertDER
              privateDER := clientPrivDER
              CertificatePEM := L.EncodeToMemory (certBlock clientCertDER)
              PrivatePEM := L.EncodeToMemory (keyBlock clientPrivDER) }) none, w3,
          [.parseCertificate CA.certificateDER (.ok caCert),
           .generateKey (.ok clientPrivKey), .now (L.Now w1).1,
           .createCertificate (clientTemplate (L.Now w1).1) caCert clientPrivKey.Public
             CA.privateKey (.ok clientCertDER),
           .marshalECPrivateKey clientPrivKey (.ok clientPrivDER),
           .encodeToMemory (certBlock clientCertDER) (L.EncodeToMemory (certBlock clientCertDER)),
           .encodeToMemory (keyBlock clientPrivDER)
             (L.EncodeToMemory (keyBlock clientPrivDER))]⟩ := by
  unfold IssueClientCrt at h ⊢
  cases CACertificate with
  | none => simp [Result.succeeded] at h
  | some CA =>
    rcases hp : L.ParseCertificate CA.certificateDER with _ | caCert
    · simp [hp, Result.succeeded] at h
    · rcases hg : L.GenerateKey w0 with ⟨_ | clientPrivKey, w1⟩
      · simp [hp, hg, Result.succeeded] at h
      · rcases hc : L.CreateCertificate (clientTemplate (L.Now w1).1) caCert clientPrivKey.Public
          CA.privateKey (L.Now w1).2 with ⟨_ | clientCertDER, w3⟩
        · simp [hp, hg, hc, Result.succeeded] at h
        · rcases hm : L.MarshalECPrivateKey clientPrivKey with _ | clientPrivDER
          · simp [hp, hg, hc, hm, Result.succeeded] at h
          · refine ⟨CA, caCert, clientPrivKey, w1, clientCertDER, w3, clientPrivDER, ?_⟩
            simp [hp, hc, hm]

/-- Every `IssueServerCrt` call on a non-nil authority returns a certificate
and no error, or no certificate and an error. -/
theorem IssueServerCrt_returns {W : Type} (L : Lib W) (CA : Certificate) (w0 : W) :
    (IssueServerCrt L (some CA) w0).val.succeeded = true ∨
      (IssueServerCrt L (some CA) w0).val.failed = true := by
  unfold IssueServerCrt
  rcases hp : L.ParseCertificate CA.certificateDER with _ | caCert
  · simp [hp, Result.failed]
  · rcases hg : L.GenerateKey w0 with ⟨_ | srvPrivKey, w1⟩
    · simp [hp, hg, Result.failed]
    · rcases hc : L.CreateCertificate (srvCrtTemplate (L.Now w1).1) caCert srvPrivKey.Public
        CA.privateKey (L.Now w1).2 with ⟨_ | srvCrtDER, w3⟩
      · simp [hp, hg, hc, Result.failed]
      · rcases hm : L.MarshalECPrivateKey srvPrivKey with _ | srvPrivKeyDER
        · simp [hp, hg, hc, hm, Result.failed]
        · simp [hp, hg, hc, hm, Result.succeeded]

/-- Every `IssueClientCrt` call on a non-nil authority returns a certificate
and no error, or no certificate and an error. -/
theorem IssueClientCrt_returns {W : Type} (L : Lib W) (CA : Certificate) (w0 : W) :
    (IssueClientCrt L (some CA) w0).val.succeeded = true ∨
      (IssueClientCrt L (some CA) w0).val.failed = true := by
  unfold IssueClientCrt
  rcases hp : L.ParseCertificate CA.certificateDER with _ | caCert
  · simp [hp, Result.failed]
  · rcases hg : L.GenerateKey w0 with ⟨_ | clientPrivKey, w1⟩
    · simp [hp, hg, Result.failed]
    · rcases hc : L.CreateCertificate (clientTemplate (L.Now w1).1) caCert clientPrivKey.Public
        CA.privateKey (L.Now w1).2 with ⟨_ | clientCertDER, w3⟩
      · simp [hp, hg, hc, Result.failed]
      · rcases hm : L.MarshalECPrivateKey clientPrivKey with _ | clientPrivDER
        · simp [hp, hg, hc, hm, Result.failed]
        · simp [hp, hg, hc, hm, Result.succeeded]

/-- Every certificate creation of `IssueCACrt`, in a run that succeeds or not:
the root template is subject and parent, and the one generated key is certified
and signs. -/
theorem IssueCACrt_signCalls {W : Type} (L : Lib W) (w0 : W) :
    ∀ c ∈ signCalls (IssueCACrt L w0).trace,
      ∃ notBefore key, c.template = caTemplate notBefore ∧ c.parent = caTemplate notBefore ∧
        generatedKeys (IssueCACrt L w0).trace = [key] ∧ c.pub = key.Public ∧
        c.priv = some key ∧ signCalls (IssueCACrt L w0).trace = [c] := by
  unfold IssueCACrt
  rcases hg : L.GenerateKey w0 with ⟨_ | caPriv, w1⟩
  · simp [hg, signCalls]
  · rcases hc : L.CreateCertificate (caTemplate (L.Now w1).1) (caTemplate (L.Now w1).1)
      caPriv.Public (some caPriv) (L.Now w1).2 with ⟨_ | caCertDER, w3⟩
    · simp [hg, hc, signCalls, generatedKeys]
    · rcases hm : L.MarshalECPrivateKey caPriv with _ | caPrivDER
      · simp [hg, hc, hm, signCalls, generatedKeys]
      · simp [hg, hc, hm, signCalls, generatedKeys]

/-- Every certificate creation of `IssueServerCrt`, in a run that succeeds or
not: the server template is the subject, the parsed authority certificate the
parent, the one generated key is certified and the authority key signs. -/
theorem IssueServerCrt_signCalls {W : Type} (L : Lib W) (CACertificate : Option Certificate)
    (w0 : W) :
    ∀ c ∈ signCalls (IssueServerCrt L CACertificate w0).trace,
      ∃ CA notBefore key, CACertificate = some CA ∧ c.template = srvCrtTemplate notBefore ∧
        L.ParseCertificate CA.certificateDER = .ok c.parent ∧
        generatedKeys (IssueServerCrt L CACertificate w0).trace = [key] ∧ c.pub = key.Public ∧
        c.priv = CA.privateKey ∧ signCalls (IssueServerCrt L CACertificate w0).trace = [c] := by
  unfold IssueServerCrt
  cases CACertificate with
  | none => simp [signCalls]
  | some CA =>
    rcases hp : L.ParseCertificate CA.certificateDER with _ | caCert
    · simp [hp, signCalls]
    · rcases hg : L.GenerateKey w0 with ⟨_ | srvPrivKey, w1⟩
      · simp [hp, hg, signCalls]
      · rcases hc : L.CreateCertificate (srvCrtTemplate (L.Now w1).1) caCert srvPrivKey.Public
          CA.privateKey (L.Now w1).2 with ⟨_ | srvCrtDER, w3⟩
        · simp [hp, hg, hc, signCalls, generatedKeys]
        · rcases hm : L.MarshalECPrivateKey srvPrivKey with _ | srvPrivKeyDER
          · simp [hp, hg, hc, hm, signCalls, generatedKeys]
          · simp [hp, hg, hc, hm, signCalls, generatedKeys]

/-- Every certificate creation of `IssueClientCrt`, in a run that succeeds or
not: the client template is the subject, the parsed authority certificate the
parent, the one generated key is certified and the authority key signs. -/
theorem IssueClientCrt_signCalls {W : Type} (L : Lib W) (CACertificate : Option Certificate)
    (w0 : W) :
    ∀ c ∈ signCalls (IssueClientCrt L CACertificate w0).trace,
      ∃ CA notBefore key, CACertificate = some CA ∧ c.template = clientTemplate notBefore ∧
        L.ParseCertificate CA.certificateDER = .ok c.parent ∧
        generatedKeys (IssueClientCrt L CACertificate w0).trace = [key] ∧ c.pub = key.Public ∧
        c.priv = CA.privateKey ∧ signCalls (IssueClientCrt L CACertificate w0).trace = [c] := by
  unfold IssueClientCrt
  cases CACertificate with
  | none => simp [signCalls]
  | some CA =>
    rcases hp : L.ParseCertificate CA.certificateDER with _ | caCert
    · simp [hp, signCalls]
    · rcases hg : L.GenerateKey w0 with ⟨_ | clientPrivKey, w1⟩
      · simp [hp, hg, signCalls]
      · rcases hc : L.CreateCertificate (clientTemplate (L.Now w1).1) caCert clientPrivKey.Public
          CA.privateKey (L.Now w1).2 with ⟨_ | clientCertDER, w3⟩
        · simp [hp, hg, hc, signCalls, generatedKeys]
        · rcases hm : L.MarshalECPrivateKey clientPrivKey with _ | clientPrivDER
          · simp [hp, hg, hc, hm, signCalls, generatedKeys]
          · simp [hp, hg, hc, hm, signCalls, generatedKeys]

/-- An authority whose certificate bytes do not parse: `IssueServerCrt` returns
the wrapped error at once. -/
theorem IssueServerCrt_of_parse_error {W : Type} (L : Lib W) (CA : Certificate) (w0 : W)
    (err : String) (hp : L.ParseCertificate CA.certificateDER = .error err) :
    IssueServerCrt L (some CA) w0 =
      ⟨.returned none (some ("authority: Server parse certificate: " ++ err)), w0,
        [.parseCertificate CA.certificateDER (.error err)]⟩ := by
  unfold IssueServerCrt
  simp [hp]

/-- An authority whose certificate bytes do not parse: `IssueClientCrt` returns
the wrapped error at once. -/
theorem IssueClientCrt_of_parse_error {W : Type} (L : Lib W) (CA : Certificate) (w0 : W)
    (err : String) (hp : L.ParseCertificate CA.certificateDER = .error err) :
    IssueClientCrt L (some CA) w0 =
      ⟨.returned none (some ("authority: Client parse certificate: " ++ err)), w0,
        [.parseCertificate CA.certificateDER (.error err)]⟩ := by
  unfold IssueClientCrt
  simp [hp]

end authority

/-!
## What every run of `main` does
-/

open authority

theorem succeeded_iff (r : Result) :
    r.succeeded = true ↔ ∃ c, r = .returned (some c) none := by
  rcases r with ⟨_ | c, _ | e⟩ | _ <;> simp [Result.succeeded]

theorem failed_iff (r : Result) :
    r.failed = true ↔ ∃ e, r = .returned none (some e) := by
  rcases r with ⟨_ | c, _ | e⟩ | _ <;> simp [Result.failed]

/-- The function `main` stops at the first issuance call that reports an error. -/
theorem main_fatal_issuance {W : Type} (L : Lib W) (w0 : W) :
    (∀ e, (mainRoot L w0).val.err = some e →
      main L w0 = ⟨.fatal e, (mainRoot L w0).world, (mainRoot L w0).trace⟩) ∧
    ((mainRoot L w0).val.succeeded = true → ∀ e, (mainServer L w0).val.err = some e →
      main L w0 = ⟨.fatal e, (mainServer L w0).world,
        (mainRoot L w0).trace ++ (mainServer L w0).trace⟩) ∧
    ((mainRoot L w0).val.succeeded = true → (mainServer L w0).val.succeeded = true →
      ∀ e, (mainClient L w0).val.err = some e →
      main L w0 = ⟨.fatal e, (mainClient L w0).world, issuanceTrace L w0⟩) := by
  refine ⟨?_, ?_, ?_⟩
  · intro e h1
    simp only [mainRoot] at h1 ⊢
    rcases hv : (IssueCACrt L w0).val with ⟨c, e1⟩ | _
    · rw [hv] at h1
      simp only [Result.err] at h1
      subst h1
      simp only [main, hv]
    · rw [hv] at h1
      simp [Result.err] at h1
  · intro h1 e h2
    obtain ⟨ca, h1⟩ := (succeeded_iff _).1 h1
    simp only [mainServer, mainRoot] at h1 h2 ⊢
    simp only [h1, Result.cert] at h2 ⊢
    rcases hv : (IssueServerCrt L (some ca) (IssueCACrt L w0).world).val with ⟨c, e1⟩ | _
    · rw [hv] at h2
      simp only [Result.err] at h2
      subst h2
      simp only [main, h1, hv]
    · rw [hv] at h2
      simp [Result.err] at h2
  · intro h1 h2 e h3
    obtain ⟨ca, h1⟩ := (succeeded_iff _).1 h1
    obtain ⟨srv, h2⟩ := (succeeded_iff _).1 h2
    simp only [issuanceTrace, mainClient, mainServer, mainRoot] at h1 h2 h3 ⊢
    simp only [h1, Result.cert] at h2 h3 ⊢
    rcases hv : (IssueClientCrt L (some ca)
      (IssueServerCrt L (some ca) (IssueCACrt L w0).world).world).val with ⟨c, e1⟩ | _
    · rw [hv] at h3
      simp only [Result.err] at h3
      subst h3
      simp only [main, h1, h2, hv]
    · rw [hv] at h3
      simp [Result.err] at h3

/-- After three successful issuance calls `main` loads the server key pair,
then the client key pair, stops at the first that fails, and otherwise builds
the pool from the root PEM and both configurations. -/
theorem main_after_issuance {W : Type} (L : Lib W) (w0 : W) (ca srv client : Certificate)
    (h1 : (mainRoot L w0).val = .returned (some ca) none)
    (h2 : (mainServer L w0).val = .returned (some srv) none)
    (h3 : (mainClient L w0).val = .returned (some client) none) :
    (∀ e, L.X509KeyPair srv.CertificatePEM srv.PrivatePEM = .error e →
      main L w0 = ⟨.fatal e, (mainClient L w0).world, issuanceTrace L w0 ++
        [.x509KeyPair srv.CertificatePEM srv.PrivatePEM (.error e)]⟩) ∧
    (∀ srvTLSCert, L.X509KeyPair srv.CertificatePEM srv.PrivatePEM = .ok srvTLSCert →
      (∀ e, L.X509KeyPair client.CertificatePEM client.PrivatePEM = .error e →
        main L w0 = ⟨.fatal e, (mainClient L w0).world, issuanceTrace L w0 ++
          [.x509KeyPair srv.CertificatePEM srv.PrivatePEM (.ok srvTLSCert),
           .x509KeyPair client.CertificatePEM client.PrivatePEM (.error e)]⟩) ∧
      (∀ clientTLSCert,
        L.X509KeyPair client.CertificatePEM client.PrivatePEM = .ok clientTLSCert →
        main L w0 =
          ⟨.configured
              (clientConfig clientTLSCert
                (L.AppendCertsFromPEM x509.NewCertPool ca.CertificatePEM).1)
              (serverConfig srvTLSCert
                (L.AppendCertsFromPEM x509.NewCertPool ca.CertificatePEM).1),
            (mainClient L w0).world, issuanceTrace L w0 ++
            [.x509KeyPair srv.CertificatePEM srv.PrivatePEM (.ok srvTLSCert),
             .x509KeyPair client.CertificatePEM client.PrivatePEM (.ok clientTLSCert),
             .appendCertsFromPEM ca.CertificatePEM
               (L.AppendCertsFromPEM x509.NewCertPool ca.CertificatePEM).2]⟩)) := by
  simp only [issuanceTrace, mainClient, mainServer, mainRoot] at h1 h2 h3 ⊢
  simp only [h1, Result.cert] at h2 h3 ⊢
  refine ⟨?_, ?_⟩
  · intro e hk
    simp only [main, h1, h2, h3, hk]
  · intro srvTLSCert hk
    refine ⟨?_, ?_⟩
    · intro e hk2
      simp only [main, h1, h2, h3, hk, hk2]
    · intro clientTLSCert hk2
      simp only [main, h1, h2, h3, hk, hk2]

/-- The function `main` ends in `log.Fatalln`, or all five fallible steps
succeeded and both configurations are built from their results. -/
theorem main_cases {W : Type} (L : Lib W) (w0 : W) :
    (∃ e, (main L w0).val = .fatal e) ∨
    ∃ ca srv client srvTLSCert clientTLSCert,
      (mainRoot L w0).val = .returned (some ca) none ∧
      (mainServer L w0).val = .returned (some srv) none ∧
      (mainClient L w0).val = .returned (some client) none ∧
      L.X509KeyPair srv.CertificatePEM srv.PrivatePEM = .ok srvTLSCert ∧
      L.X509KeyPair client.CertificatePEM client.PrivatePEM = .ok clientTLSCert ∧
      (main L w0).val = .configured
        (clientConfig clientTLSCert (L.AppendCertsFromPEM x509.NewCertPool ca.CertificatePEM).1)
        (serverConfig srvTLSCert (L.AppendCertsFromPEM x509.NewCertPool ca.CertificatePEM).1) := by
  obtain ⟨hf1, hf2, hf3⟩ := main_fatal_issuance L w0
  rcases IssueCACrt_returns L w0 with h1 | h1
  · have h1s : (mainRoot L w0).val.succeeded = true := h1
    obtain ⟨ca, h1e⟩ := (succeeded_iff _).1 h1s
    have hsrvdef : mainServer L w0 = IssueServerCrt L (some ca) (mainRoot L w0).world := by
      simp only [mainServer, h1e, Result.cert]
    rcases IssueServerCrt_returns L ca (mainRoot L w0).world with h2 | h2
    · rw [← hsrvdef] at h2
      obtain ⟨srv, h2e⟩ := (succeeded_iff _).1 h2
      have hclidef : mainClient L w0 = IssueClientCrt L (some ca) (mainServer L w0).world := by
        simp only [mainClient, h1e, Result.cert]
      rcases IssueClientCrt_returns L ca (mainServer L w0).world with h3 | h3
      · rw [← hclidef] at h3
        obtain ⟨client, h3e⟩ := (succeeded_iff _).1 h3
        obtain ⟨hk1, hk2⟩ := main_after_issuance L w0 ca srv client h1e h2e h3e
        rcases hp1 : L.X509KeyPair srv.CertificatePEM srv.PrivatePEM with e | srvTLSCert
        · exact Or.inl ⟨e, by rw [hk1 e hp1]⟩
        · obtain ⟨hk3, hk4⟩ := hk2 srvTLSCert hp1
          rcases hp2 : L.X509KeyPair client.CertificatePEM client.PrivatePEM with
            e | clientTLSCert
          · exact Or.inl ⟨e, by rw [hk3 e hp2]⟩
          · exact Or.inr ⟨ca, srv, client, srvTLSCert, clientTLSCert, h1e, h2e, h3e, hp1, hp2,
              by rw [hk4 clientTLSCert hp2]⟩
      · rw [← hclidef] at h3
        obtain ⟨e, h3e⟩ := (failed_iff _).1 h3
        exact Or.inl ⟨e, by rw [hf3 h1s h2 e (by rw [h3e]; rfl)]⟩
    · rw [← hsrvdef] at h2
      obtain ⟨e, h2e⟩ := (failed_iff _).1 h2
      exact Or.inl ⟨e, by rw [hf2 h1s e (by rw [h2e]; rfl)]⟩
  · have h1s : (mainRoot L w0).val.failed = true := h1
    obtain ⟨e, h1e⟩ := (failed_iff _).1 h1s
    exact Or.inl ⟨e, by rw [hf1 e (by rw [h1e]; rfl)]⟩

/-- Under the contracts of `encoding/pem` and `AppendCertsFromPEM`, once the
server leaf was issued under the root, adding the root PEM to the empty pool
yields the pool holding the parsed root and reports success. -/
theorem root_pool {W : Type} (L : Lib W) (w0 : W) (hpem : PemRoundTrip L)
    (happ : AppendAddsParsed L) (ca srv : Certificate)
    (h1 : (mainRoot L w0).val = .returned (some ca) none)
    (h2 : (mainServer L w0).val = .returned (some srv) none) :
    ∃ caCert, L.ParseCertificate ca.certificateDER = .ok caCert ∧
      L.AppendCertsFromPEM x509.NewCertPool ca.CertificatePEM = ([caCert], true) := by
  have h1s : (IssueCACrt L w0).val.succeeded = true := by
    have : (mainRoot L w0).val.succeeded = true := by rw [h1]; rfl
    exact this
  obtain ⟨key, w1, der, w3, keyDER, -, -, -, hrun⟩ := IssueCACrt_of_succeeded L w0 h1s
  have hca : ca.CertificatePEM = L.EncodeToMemory (certBlock ca.certificateDER) := by
    have h1x : (IssueCACrt L w0).val = .returned (some ca) none := h1
    rw [hrun] at h1x
    simp only [Result.returned.injEq, Option.some.injEq, and_true] at h1x
    subst h1x
    rfl
  have h2s : (IssueServerCrt L (some ca) (mainRoot L w0).world).val.succeeded = true := by
    have : (mainServer L w0).val.succeeded = true := by rw [h2]; rfl
    simpa only [mainServer, h1, Result.cert] using this
  obtain ⟨CA, caCert, key2, w12, der2, w32, keyDER2, hCA, hp, -⟩ :=
    IssueServerCrt_of_succeeded L (some ca) (mainRoot L w0).world h2s
  simp only [Option.some.injEq] at hCA
  subst hCA
  refine ⟨caCert, hp, ?_⟩
  have := happ x509.NewCertPool ca.CertificatePEM (certBlock ca.certificateDER) caCert
    (by rw [hca]; exact (hpem ca.certificateDER).1) rfl rfl hp
  simpa [x509.NewCertPool] using this

/-- A certificate an issuance call returns comes with a nil error, and each
of its five fields is the result of a successful library call of that run. -/
theorem issued_is_populated {W : Type} (L : Lib W) (CACertificate : Option Certificate) (w : W)
    (r : Run W)
    (hr : r = IssueCACrt L w ∨ r = IssueServerCrt L CACertificate w ∨
      r = IssueClientCrt L CACertificate w)
    (hs : r.val.succeeded = true) :
    ∃ cert key, r.val = .returned (some cert) none ∧ cert.privateKey = some key ∧
      Event.generateKey (.ok key) ∈ r.trace ∧
      Event.marshalECPrivateKey key (.ok cert.privateDER) ∈ r.trace ∧
      (∃ template parent pub priv,
        Event.createCertificate template parent pub priv (.ok cert.certificateDER) ∈ r.trace) ∧
      Event.encodeToMemory (certBlock cert.certificateDER) cert.CertificatePEM ∈ r.trace ∧
      Event.encodeToMemory (keyBlock cert.privateDER) cert.PrivatePEM ∈ r.trace := by
  rcases hr with rfl | rfl | rfl
  · obtain ⟨key, w1, der, w3, keyDER, -, -, -, hrun⟩ := IssueCACrt_of_succeeded L w hs
    rw [hrun]
    exact ⟨_, key, rfl, rfl, by simp, by simp,
      ⟨caTemplate (L.Now w1).1, caTemplate (L.Now w1).1, key.Public, some key, by simp⟩,
      by simp, by simp⟩
  · obtain ⟨CA, caCert, key, w1, der, w3, keyDER, -, -, -, -, -, hrun⟩ :=
      IssueServerCrt_of_succeeded L CACertificate w hs
    rw [hrun]
    exact ⟨_, key, rfl, rfl, by simp, by simp,
      ⟨srvCrtTemplate (L.Now w1).1, caCert, key.Public, CA.privateKey, by simp⟩,
      by simp, by simp⟩
  · obtain ⟨CA, caCert, key, w1, der, w3, keyDER, -, -, -, -, -, hrun⟩ :=
      IssueClientCrt_of_succeeded L CACertificate w hs
    rw [hrun]
    exact ⟨_, key, rfl, rfl, by simp, by simp,
      ⟨clientTemplate (L.Now w1).1, caCert, key.Public, CA.privateKey, by simp⟩,
      by simp, by simp⟩

/-!
## The claims
-/

/-- C1: in every successful run of `IssueServerCrt` and of `IssueClientCrt`
exactly one certificate is created, and its template has `IsCA` false, makes no
basic-constraints assertion, and has key usage exactly key-encipherment and
digital-signature: it lacks certificate-sign, so the CA-sign-capability check
on it fails. -/
theorem leaf_template_has_no_ca_rights {W : Type} (L : Lib W)
    (CACertificate : Option Certificate) (w0 : W) (r : Run W)
    (hr : r = IssueServerCrt L CACertificate w0 ∨ r = IssueClientCrt L CACertificate w0)
    (hs : r.val.succeeded = true) :
    (signCalls r.trace).length = 1 ∧
    ∀ c ∈ signCalls r.trace,
      c.template.IsCA = false ∧ c.template.BasicConstraintsValid = false ∧
      c.template.KeyUsage = x509.KeyUsageKeyEncipherment ||| x509.KeyUsageDigitalSignature ∧
      (∀ bit ∈ x509.allKeyUsages, x509.hasKeyUsage c.template.KeyUsage bit = true ↔
        (bit = x509.KeyUsageKeyEncipherment ∨ bit = x509.KeyUsageDigitalSignature)) ∧
      x509.hasKeyUsage c.template.KeyUsage x509.KeyUsageCertSign = false ∧
      x509.canSignCertificates c.template = false := by
  rcases hr with rfl | rfl
  · obtain ⟨CA, caCert, key, w1, der, w3, keyDER, -, -, -, -, -, hrun⟩ :=
      IssueServerCrt_of_succeeded L CACertificate w0 hs
    rw [hrun]
    simp only [signCalls, List.length_singleton, List.mem_singleton, forall_eq, true_and]
    simp only [srvCrtTemplate, x509.canSignCertificates, Bool.false_and, and_true]
    decide
  · obtain ⟨CA, caCert, key, w1, der, w3, keyDER, -, -, -, -, -, hrun⟩ :=
      IssueClientCrt_of_succeeded L CACertificate w0 hs
    rw [hrun]
    simp only [signCalls, List.length_singleton, List.mem_singleton, forall_eq, true_and]
    simp only [clientTemplate, x509.canSignCertificates, Bool.false_and, and_true]
    decide

/-- Witness of C1: the server and the client leaf issued under the reference root. -/
theorem leaf_template_has_no_ca_rights_witness :
    RefLib.serverRun.val.succeeded = true ∧ RefLib.clientRun.val.succeeded = true ∧
    ((signCalls RefLib.serverRun.trace).length = 1 ∧
      ∀ c ∈ signCalls RefLib.serverRun.trace,
        c.template.IsCA = false ∧ c.template.BasicConstraintsValid = false ∧
        c.template.KeyUsage = x509.KeyUsageKeyEncipherment ||| x509.KeyUsageDigitalSignature ∧
        (∀ bit ∈ x509.allKeyUsages, x509.hasKeyUsage c.template.KeyUsage bit = true ↔
          (bit = x509.KeyUsageKeyEncipherment ∨ bit = x509.KeyUsageDigitalSignature)) ∧
        x509.hasKeyUsage c.template.KeyUsage x509.KeyUsageCertSign = false ∧
        x509.canSignCertificates c.template = false) ∧
    ((signCalls RefLib.clientRun.trace).length = 1 ∧
      ∀ c ∈ signCalls RefLib.clientRun.trace,
        c.template.IsCA = false ∧ c.template.BasicConstraintsValid = false ∧
        c.template.KeyUsage = x509.KeyUsageKeyEncipherment ||| x509.KeyUsageDigitalSignature ∧
        (∀ bit ∈ x509.allKeyUsages, x509.hasKeyUsage c.template.KeyUsage bit = true ↔
          (bit = x509.KeyUsageKeyEncipherment ∨ bit = x509.KeyUsageDigitalSignature)) ∧
        x509.hasKeyUsage c.template.KeyUsage x509.KeyUsageCertSign = false ∧
        x509.canSignCertificates c.template = false) :=
  ⟨by decide, by decide,
   leaf_template_has_no_ca_rights RefLib.lib RefLib.rootRun.val.cert RefLib.rootRun.world
     RefLib.serverRun (Or.inl rfl) (by decide),
   leaf_template_has_no_ca_rights RefLib.lib RefLib.rootRun.val.cert RefLib.serverRun.world
     RefLib.clientRun (Or.inr rfl) (by decide)⟩

/-- C2: extended key usage is role-exclusive.  Every template `IssueServerCrt`
hands to certificate creation lists server-authentication and not
client-authentication, every template `IssueClientCrt` hands over lists
client-authentication and not server-authentication, and a successful run
creates exactly one certificate. -/
theorem ext_key_usage_is_role_exclusive {W : Type} (L : Lib W)
    (CACertificate : Option Certificate) (w0 : W) :
    (∀ c ∈ signCalls (IssueServerCrt L CACertificate w0).trace,
      x509.ExtKeyUsageServerAuth ∈ c.template.ExtKeyUsage ∧
      x509.ExtKeyUsageClientAuth ∉ c.template.ExtKeyUsage) ∧
    (∀ c ∈ signCalls (IssueClientCrt L CACertificate w0).trace,
      x509.ExtKeyUsageClientAuth ∈ c.template.ExtKeyUsage ∧
      x509.ExtKeyUsageServerAuth ∉ c.template.ExtKeyUsage) ∧
    ((IssueServerCrt L CACertificate w0).val.succeeded = true →
      (signCalls (IssueServerCrt L CACertificate w0).trace).length = 1) ∧
    ((IssueClientCrt L CACertificate w0).val.succeeded = true →
      (signCalls (IssueClientCrt L CACertificate w0).trace).length = 1) := by
  refine ⟨?_, ?_, ?_, ?_⟩
  · intro c hc
    obtain ⟨CA, notBefore, key, -, ht, -⟩ := IssueServerCrt_signCalls L CACertificate w0 c hc
    rw [ht]
    simp only [srvCrtTemplate]
    decide
  · intro c hc
    obtain ⟨CA, notBefore, key, -, ht, -⟩ := IssueClientCrt_signCalls L CACertificate w0 c hc
    rw [ht]
    simp only [clientTemplate]
    decide
  · intro hs
    obtain ⟨CA, caCert, key, w1, der, w3, keyDER, -, -, -, -, -, hrun⟩ :=
      IssueServerCrt_of_succeeded L CACertificate w0 hs
    rw [hrun]
    simp [signCalls]
  · intro hs
    obtain ⟨CA, caCert, key, w1, der, w3, keyDER, -, -, -, -, -, hrun⟩ :=
      IssueClientCrt_of_succeeded L CACertificate w0 hs
    rw [hrun]
    simp [signCalls]

/-- Witness of C2: both leaves issued under the reference root succeed, so
each statement of C2 speaks about one created certificate. -/
theorem ext_key_usage_is_role_exclusive_witness :
    RefLib.serverRun.val.succeeded = true ∧
    (signCalls RefLib.serverRun.trace).length = 1 ∧
    (∀ c ∈ signCalls RefLib.serverRun.trace,
      x509.ExtKeyUsageServerAuth ∈ c.template.ExtKeyUsage ∧
      x509.ExtKeyUsageClientAuth ∉ c.template.ExtKeyUsage) ∧
    (IssueClientCrt RefLib.lib RefLib.rootRun.val.cert RefLib.rootRun.world).val.succeeded = true ∧
    (signCalls (IssueClientCrt RefLib.lib RefLib.rootRun.val.cert
      RefLib.rootRun.world).trace).length = 1 ∧
    (∀ c ∈ signCalls (IssueClientCrt RefLib.lib RefLib.rootRun.val.cert
        RefLib.rootRun.world).trace,
      x509.ExtKeyUsageClientAuth ∈ c.template.ExtKeyUsage ∧
      x509.ExtKeyUsageServerAuth ∉ c.template.ExtKeyUsage) :=
  ⟨by decide,
   (ext_key_usage_is_role_exclusive RefLib.lib RefLib.rootRun.val.cert
     RefLib.rootRun.world).2.2.1 (by decide),
   (ext_key_usage_is_role_exclusive RefLib.lib RefLib.rootRun.val.cert RefLib.rootRun.world).1,
   by decide,
   (ext_key_usage_is_role_exclusive RefLib.lib RefLib.rootRun.val.cert
     RefLib.rootRun.world).2.2.2 (by decide),
   (ext_key_usage_is_role_exclusive RefLib.lib RefLib.rootRun.val.cert
     RefLib.rootRun.world).2.1⟩

/-- C3: a successful `IssueCACrt` generates one key and creates one
certificate.  Its template asserts `IsCA` with valid basic constraints, has
key usage exactly key-encipherment, digital-signature and certificate-sign,
no extended key usage and serial number 1; the template is also the parent
(self-signed), the certified public key is that of the generated key and the
generated key signs. -/
theorem root_is_self_signed_ca {W : Type} (L : Lib W) (w0 : W)
    (hs : (IssueCACrt L w0).val.succeeded = true) :
    ∃ key, generatedKeys (IssueCACrt L w0).trace = [key] ∧
      (signCalls (IssueCACrt L w0).trace).length = 1 ∧
      ∀ c ∈ signCalls (IssueCACrt L w0).trace,
        c.template.IsCA = true ∧ c.template.BasicConstraintsValid = true ∧
        c.template.KeyUsage = x509.KeyUsageKeyEncipherment ||| x509.KeyUsageDigitalSignature |||
          x509.KeyUsageCertSign ∧
        (∀ bit ∈ x509.allKeyUsages, x509.hasKeyUsage c.template.KeyUsage bit = true ↔
          (bit = x509.KeyUsageKeyEncipherment ∨ bit = x509.KeyUsageDigitalSignature ∨
            bit = x509.KeyUsageCertSign)) ∧
        x509.canSignCertificates c.template = true ∧
        c.template.ExtKeyUsage = [] ∧ c.template.SerialNumber = some 1 ∧
        c.parent = c.template ∧ c.pub = key.Public ∧ c.priv = some key := by
  obtain ⟨caPriv, w1, der, w3, keyDER, -, -, -, hrun⟩ := IssueCACrt_of_succeeded L w0 hs
  refine ⟨caPriv, ?_⟩
  rw [hrun]
  simp only [signCalls, generatedKeys, List.length_singleton, List.mem_singleton, forall_eq,
    true_and]
  simp only [caTemplate, x509.canSignCertificates, Bool.true_and, and_true]
  decide

/-- Witness of C3: the root issued by the reference library. -/
theorem root_is_self_signed_ca_witness :
    (IssueCACrt RefLib.lib RefLib.w0).val.succeeded = true ∧
    ∃ key, generatedKeys (IssueCACrt RefLib.lib RefLib.w0).trace = [key] ∧
      (signCalls (IssueCACrt RefLib.lib RefLib.w0).trace).length = 1 ∧
      ∀ c ∈ signCalls (IssueCACrt RefLib.lib RefLib.w0).trace,
        c.template.IsCA = true ∧ c.template.BasicConstraintsValid = true ∧
        c.template.KeyUsage = x509.KeyUsageKeyEncipherment ||| x509.KeyUsageDigitalSignature |||
          x509.KeyUsageCertSign ∧
        (∀ bit ∈ x509.allKeyUsages, x509.hasKeyUsage c.template.KeyUsage bit = true ↔
          (bit = x509.KeyUsageKeyEncipherment ∨ bit = x509.KeyUsageDigitalSignature ∨
            bit = x509.KeyUsageCertSign)) ∧
        x509.canSignCertificates c.template = true ∧
        c.template.ExtKeyUsage = [] ∧ c.template.SerialNumber = some 1 ∧
        c.parent = c.template ∧ c.pub = key.Public ∧ c.priv = some key :=
  ⟨by decide, root_is_self_signed_ca RefLib.lib RefLib.w0 (by decide)⟩

/-- C4: bundle integrity.  When `IssueCACrt`, `IssueServerCrt` or
`IssueClientCrt` returns a certificate, the call generated exactly one key and
created exactly one certificate; the public key handed to certificate creation
is the public part of that key and the bytes it returned are `certificateDER`;
`privateKey` is that key, `privateDER` its marshalling, and the two PEM fields
encode `certificateDER` and `privateDER`. -/
theorem bundle_integrity {W : Type} (L : Lib W) (CACertificate : Option Certificate) (w0 : W)
    (r : Run W) (cert : Certificate)
    (hr : r = IssueCACrt L w0 ∨ r = IssueServerCrt L CACertificate w0 ∨
      r = IssueClientCrt L CACertificate w0)
    (hs : r.val = .returned (some cert) none) :
    ∃ key, generatedKeys r.trace = [key] ∧
      (signCalls r.trace).length = 1 ∧
      (∀ c ∈ signCalls r.trace, c.pub = key.Public ∧ c.res = .ok cert.certificateDER) ∧
      cert.privateKey = some key ∧
      L.MarshalECPrivateKey key = .ok cert.privateDER ∧
      cert.PrivatePEM = L.EncodeToMemory (keyBlock cert.privateDER) ∧
      cert.CertificatePEM = L.EncodeToMemory (certBlock cert.certificateDER) := by
  have hsucc : r.val.succeeded = true := by rw [hs]; rfl
  rcases hr with rfl | rfl | rfl
  · obtain ⟨key, w1, der, w3, keyDER, -, -, hm, hrun⟩ := IssueCACrt_of_succeeded L w0 hsucc
    rw [hrun] at hs ⊢
    simp only [Result.returned.injEq, Option.some.injEq, and_true] at hs
    subst hs
    exact ⟨key, by simp [generatedKeys], by simp [signCalls], by simp [signCalls], rfl, hm,
      rfl, rfl⟩
  · obtain ⟨CA, caCert, key, w1, der, w3, keyDER, -, -, -, -, hm, hrun⟩ :=
      IssueServerCrt_of_succeeded L CACertificate w0 hsucc
    rw [hrun] at hs ⊢
    simp only [Result.returned.injEq, Option.some.injEq, and_true] at hs
    subst hs
    exact ⟨key, by simp [generatedKeys], by simp [signCalls], by simp [signCalls], rfl, hm,
      rfl, rfl⟩
  · obtain ⟨CA, caCert, key, w1, der, w3, keyDER, -, -, -, -, hm, hrun⟩ :=
      IssueClientCrt_of_succeeded L CACertificate w0 hsucc
    rw [hrun] at hs ⊢
    simp only [Result.returned.injEq, Option.some.injEq, and_true] at hs
    subst hs
    exact ⟨key, by simp [generatedKeys], by simp [signCalls], by simp [signCalls], rfl, hm,
      rfl, rfl⟩

/-- Witness of C4: the client leaf issued under the reference root. -/
theorem bundle_integrity_witness :
    RefLib.clientRun.val = .returned (some (RefLib.certOf RefLib.clientRun)) none ∧
    ∃ key, generatedKeys RefLib.clientRun.trace = [key] ∧
      (signCalls RefLib.clientRun.trace).length = 1 ∧
      (∀ c ∈ signCalls RefLib.clientRun.trace,
        c.pub = key.Public ∧ c.res = .ok (RefLib.certOf RefLib.clientRun).certificateDER) ∧
      (RefLib.certOf RefLib.clientRun).privateKey = some key ∧
      RefLib.lib.MarshalECPrivateKey key = .ok (RefLib.certOf RefLib.clientRun).privateDER ∧
      (RefLib.certOf RefLib.clientRun).PrivatePEM =
        RefLib.lib.EncodeToMemory (keyBlock (RefLib.certOf RefLib.clientRun).privateDER) ∧
      (RefLib.certOf RefLib.clientRun).CertificatePEM =
        RefLib.lib.EncodeToMemory (certBlock (RefLib.certOf RefLib.clientRun).certificateDER) :=
  ⟨by decide,
   bundle_integrity RefLib.lib RefLib.rootRun.val.cert RefLib.serverRun.world RefLib.clientRun
     (RefLib.certOf RefLib.clientRun) (Or.inr (Or.inr rfl)) (by decide)⟩

set_option maxHeartbeats 4000000 in
/-- Counterexample to C5 as stated: with the first server leaf of the
reference bootstrap as authority, `IssueServerCrt` succeeds; the parent handed
to certificate creation is that leaf (not a CA) and carries the subject name
of the new template, the signing key is the leaf key and not the root key, and
the issued certificate parses with issuer equal to subject.  A certificate
that is not the root has issuer == subject, and a leaf is signed by a key
other than the root's private key. -/
theorem leaf_under_leaf_is_self_issued :
    RefLib.serverRun.val.succeeded = true ∧
    RefLib.serverUnderLeafRun.val.succeeded = true ∧
    (signCalls RefLib.serverUnderLeafRun.trace).map
      (fun c => (c.parent.Subject.CommonName, c.template.Subject.CommonName, c.parent.IsCA)) =
      [("my-server", "my-server", false)] ∧
    (signCalls RefLib.serverUnderLeafRun.trace).map (fun c => c.priv) =
      [(RefLib.certOf RefLib.serverRun).privateKey] ∧
    (RefLib.certOf RefLib.serverRun).privateKey ≠ (RefLib.certOf RefLib.rootRun).privateKey ∧
    (RefLib.lib.ParseCertificate
      (RefLib.certOf RefLib.serverUnderLeafRun).certificateDER).toOption.map
      (fun c => (c.Issuer.CommonName, c.Subject.CommonName, c.IsCA)) =
      some ("my-server", "my-server", false) :=
  ⟨by decide, by decide, by decide, by decide, by decide, by decide⟩

/-- C5, amended: a leaf is signed by its authority, whatever the authority is.
Every certificate `IssueServerCrt` or `IssueClientCrt` creates has as parent
(issuer) the certificate parsed from the authority's `certificateDER` and as
signing key the authority's `privateKey`; the key generated in the call is
the certified public key.  The subject is `my-server` or `my-client`, so the
issuer equals the subject exactly when the authority itself carries that
name.  Under the certificate a successful `IssueCACrt` returned, every leaf
is signed by the root key, the key that signed the root.  Every certificate
`IssueCACrt` creates has its own template as parent and the key generated in
that call as signer.  A successful call creates exactly one certificate. -/
theorem leaf_is_signed_by_its_authority {W : Type} (L : Lib W)
    (CACertificate : Option Certificate) (w0 w : W) :
    (∀ c ∈ signCalls (IssueServerCrt L CACertificate w0).trace,
      ∃ CA key, CACertificate = some CA ∧
        L.ParseCertificate CA.certificateDER = .ok c.parent ∧ c.priv = CA.privateKey ∧
        generatedKeys (IssueServerCrt L CACertificate w0).trace = [key] ∧
        c.pub = key.Public ∧ c.template.Subject.CommonName = "my-server" ∧
        (c.parent.Subject = c.template.Subject ↔ c.parent.Subject.CommonName = "my-server")) ∧
    (∀ c ∈ signCalls (IssueClientCrt L CACertificate w0).trace,
      ∃ CA key, CACertificate = some CA ∧
        L.ParseCertificate CA.certificateDER = .ok c.parent ∧ c.priv = CA.privateKey ∧
        generatedKeys (IssueClientCrt L CACertificate w0).trace = [key] ∧
        c.pub = key.Public ∧ c.template.Subject.CommonName = "my-client" ∧
        (c.parent.Subject = c.template.Subject ↔ c.parent.Subject.CommonName = "my-client")) ∧
    (∀ c ∈ signCalls (IssueCACrt L w0).trace,
      c.parent = c.template ∧
        ∃ key, generatedKeys (IssueCACrt L w0).trace = [key] ∧ c.pub = key.Public ∧
          c.priv = some key) ∧
    (∀ root, (IssueCACrt L w0).val = .returned (some root) none →
      ∃ rootKey, generatedKeys (IssueCACrt L w0).trace = [rootKey] ∧
        root.privateKey = some rootKey ∧
        (∀ c ∈ signCalls (IssueCACrt L w0).trace, c.priv = some rootKey) ∧
        (∀ c ∈ signCalls (IssueServerCrt L (some root) w).trace, c.priv = some rootKey) ∧
        (∀ c ∈ signCalls (IssueClientCrt L (some root) w).trace, c.priv = some rootKey)) ∧
    ((IssueServerCrt L CACertificate w0).val.succeeded = true →
      (signCalls (IssueServerCrt L CACertificate w0).trace).length = 1) ∧
    ((IssueClientCrt L CACertificate w0).val.succeeded = true →
      (signCalls (IssueClientCrt L CACertificate w0).trace).length = 1) ∧
    ((IssueCACrt L w0).val.succeeded = true →
      (signCalls (IssueCACrt L w0).trace).length = 1) := by
  refine ⟨?_, ?_, ?_, ?_, ?_, ?_, ?_⟩
  · intro c hc
    obtain ⟨CA, notBefore, key, hCA, ht, hp, hk, hpub, hpriv, -⟩ :=
      IssueServerCrt_signCalls L CACertificate w0 c hc
    refine ⟨CA, key, hCA, hp, hpriv, hk, hpub, by rw [ht]; rfl, ?_⟩
    rw [ht]
    constructor
    · intro h
      rw [h]
      rfl
    · intro h
      cases hs : c.parent.Subject with
      | mk cn =>
        rw [hs] at h
        simp only [srvCrtTemplate, pkix.Name.mk.injEq]
        exact h
  · intro c hc
    obtain ⟨CA, notBefore, key, hCA, ht, hp, hk, hpub, hpriv, -⟩ :=
      IssueClientCrt_signCalls L CACertificate w0 c hc
    refine ⟨CA, key, hCA, hp, hpriv, hk, hpub, by rw [ht]; rfl, ?_⟩
    rw [ht]
    constructor
    · intro h
      rw [h]
      rfl
    · intro h
      cases hs : c.parent.Subject with
      | mk cn =>
        rw [hs] at h
        simp only [clientTemplate, pkix.Name.mk.injEq]
        exact h
  · intro c hc
    obtain ⟨notBefore, key, ht, hp, hk, hpub, hpriv, -⟩ := IssueCACrt_signCalls L w0 c hc
    exact ⟨by rw [hp, ht], key, hk, hpub, hpriv⟩
  · intro root hroot
    have hsucc : (IssueCACrt L w0).val.succeeded = true := by rw [hroot]; rfl
    obtain ⟨rootKey, w1, der, w3, keyDER, -, -, -, hrun⟩ := IssueCACrt_of_succeeded L w0 hsucc
    have hkey : root.privateKey = some rootKey := by
      rw [hrun] at hroot
      simp only [Result.returned.injEq, Option.some.injEq, and_true] at hroot
      subst hroot
      rfl
    refine ⟨rootKey, by rw [hrun]; simp [generatedKeys], hkey, ?_, ?_, ?_⟩
    · rw [hrun]
      simp [signCalls]
    · intro c hc
      obtain ⟨CA, notBefore, key, hCA, -, -, -, -, hpriv, -⟩ :=
        IssueServerCrt_signCalls L (some root) w c hc
      simp only [Option.some.injEq] at hCA
      subst hCA
      rw [hpriv, hkey]
    · intro c hc
      obtain ⟨CA, notBefore, key, hCA, -, -, -, -, hpriv, -⟩ :=
        IssueClientCrt_signCalls L (some root) w c hc
      simp only [Option.some.injEq] at hCA
      subst hCA
      rw [hpriv, hkey]
  · intro hs
    obtain ⟨CA, caCert, key, w1, der, w3, keyDER, -, -, -, -, -, hrun⟩ :=
      IssueServerCrt_of_succeeded L CACertificate w0 hs
    rw [hrun]
    simp [signCalls]
  · intro hs
    obtain ⟨CA, caCert, key, w1, der, w3, keyDER, -, -, -, -, -, hrun⟩ :=
      IssueClientCrt_of_succeeded L CACertificate w0 hs
    rw [hrun]
    simp [signCalls]
  · intro hs
    obtain ⟨key, w1, der, w3, keyDER, -, -, -, hrun⟩ := IssueCACrt_of_succeeded L w0 hs
    rw [hrun]
    simp [signCalls]

/-- Witness of the amended C5: under the reference root the server leaf is
created with the parsed root `my-ca` as parent, so issuer and subject differ,
and the root key, which is not the key generated for the leaf, signs. -/
theorem leaf_is_signed_by_its_authority_witness :
    RefLib.rootRun.val = .returned (some (RefLib.certOf RefLib.rootRun)) none ∧
    RefLib.serverRun.val.succeeded = true ∧
    (signCalls RefLib.serverRun.trace).map
      (fun c => (c.parent.Subject.CommonName, c.template.Subject.CommonName, c.parent.IsCA,
        c.priv)) = [("my-ca", "my-server", true, some (RefLib.keyOf 11))] ∧
    generatedKeys RefLib.serverRun.trace = [RefLib.keyOf 33] ∧
    (∀ c ∈ signCalls RefLib.serverRun.trace,
      ∃ CA key, RefLib.rootRun.val.cert = some CA ∧
        RefLib.lib.ParseCertificate CA.certificateDER = .ok c.parent ∧
        c.priv = CA.privateKey ∧
        generatedKeys RefLib.serverRun.trace = [key] ∧
        c.pub = key.Public ∧ c.template.Subject.CommonName = "my-server" ∧
        (c.parent.Subject = c.template.Subject ↔
          c.parent.Subject.CommonName = "my-server")) ∧
    ∃ rootKey, generatedKeys (IssueCACrt RefLib.lib RefLib.w0).trace = [rootKey] ∧
      (RefLib.certOf RefLib.rootRun).privateKey = some rootKey ∧
      (∀ c ∈ signCalls (IssueCACrt RefLib.lib RefLib.w0).trace, c.priv = some rootKey) ∧
      (∀ c ∈ signCalls (IssueServerCrt RefLib.lib (some (RefLib.certOf RefLib.rootRun))
        RefLib.rootRun.world).trace, c.priv = some rootKey) ∧
      (∀ c ∈ signCalls (IssueClientCrt RefLib.lib (some (RefLib.certOf RefLib.rootRun))
        RefLib.rootRun.world).trace, c.priv = some rootKey) :=
  ⟨by decide, by decide, by decide, by decide,
   (leaf_is_signed_by_its_authority RefLib.lib RefLib.rootRun.val.cert RefLib.rootRun.world
     RefLib.rootRun.world).1,
   (leaf_is_signed_by_its_authority RefLib.lib none RefLib.w0 RefLib.rootRun.world).2.2.2.1
     (RefLib.certOf RefLib.rootRun) (by decide)⟩

/-- Counterexample to C6 as stated: the server leaf issued under the reference
root parses as a certificate with `IsCA` false, and both `IssueServerCrt` and
`IssueClientCrt` accept it as authority and return a certificate. -/
theorem leaf_authority_is_accepted :
    RefLib.serverRun.val = .returned (some (RefLib.certOf RefLib.serverRun)) none ∧
    (∃ c, RefLib.lib.ParseCertificate (RefLib.certOf RefLib.serverRun).certificateDER = .ok c ∧
      c.IsCA = false ∧ x509.canSignCertificates c = false) ∧
    (IssueServerCrt RefLib.lib (some (RefLib.certOf RefLib.serverRun))
      RefLib.clientRun.world).val.succeeded = true ∧
    (IssueClientCrt RefLib.lib (some (RefLib.certOf RefLib.serverRun))
      RefLib.clientRun.world).val.succeeded = true := by
  refine ⟨by decide, ?_, by decide, by decide⟩
  refine ⟨x509.Certificate.mk ⟨"my-server"⟩ ⟨"my-ca"⟩ (some 2) false false
    1700000000000000000 1700003600000000000 ["localhost"] 5 [1]
    (some (RefLib.keyOf 33).Public), rfl, rfl, rfl⟩

/-- C6, amended: an authority whose certificate bytes do not parse is
rejected.  `IssueServerCrt` and `IssueClientCrt` then return no certificate and
the parse error, wrapped; no key is generated, no certificate is created and
the world is left as it was. -/
theorem unparsable_authority_is_rejected {W : Type} (L : Lib W) (CA : Certificate) (w0 : W)
    (err : String) (hp : L.ParseCertificate CA.certificateDER = .error err) :
    ((IssueServerCrt L (some CA) w0).val =
        .returned none (some ("authority: Server parse certificate: " ++ err)) ∧
      (IssueServerCrt L (some CA) w0).world = w0 ∧
      generatedKeys (IssueServerCrt L (some CA) w0).trace = [] ∧
      signCalls (IssueServerCrt L (some CA) w0).trace = []) ∧
    ((IssueClientCrt L (some CA) w0).val =
        .returned none (some ("authority: Client parse certificate: " ++ err)) ∧
      (IssueClientCrt L (some CA) w0).world = w0 ∧
      generatedKeys (IssueClientCrt L (some CA) w0).trace = [] ∧
      signCalls (IssueClientCrt L (some CA) w0).trace = []) := by
  rw [IssueServerCrt_of_parse_error L CA w0 err hp, IssueClientCrt_of_parse_error L CA w0 err hp]
  simp [generatedKeys, signCalls]

/-- Witness of the amended C6: the reference root with one byte of its
certificate changed. -/
theorem unparsable_authority_is_rejected_witness :
    RefLib.lib.ParseCertificate RefLib.corruptedRoot.certificateDER =
      .error "x509: malformed certificate" ∧
    ((IssueServerCrt RefLib.lib (some RefLib.corruptedRoot) RefLib.w0).val =
        .returned none (some ("authority: Server parse certificate: " ++
          "x509: malformed certificate")) ∧
      (IssueServerCrt RefLib.lib (some RefLib.corruptedRoot) RefLib.w0).world = RefLib.w0 ∧
      generatedKeys (IssueServerCrt RefLib.lib (some RefLib.corruptedRoot) RefLib.w0).trace = [] ∧
      signCalls (IssueServerCrt RefLib.lib (some RefLib.corruptedRoot) RefLib.w0).trace = []) ∧
    ((IssueClientCrt RefLib.lib (some RefLib.corruptedRoot) RefLib.w0).val =
        .returned none (some ("authority: Client parse certificate: " ++
          "x509: malformed certificate")) ∧
      (IssueClientCrt RefLib.lib (some RefLib.corruptedRoot) RefLib.w0).world = RefLib.w0 ∧
      generatedKeys (IssueClientCrt RefLib.lib (some RefLib.corruptedRoot) RefLib.w0).trace = [] ∧
      signCalls (IssueClientCrt RefLib.lib (some RefLib.corruptedRoot) RefLib.w0).trace = []) :=
  ⟨rfl,
   unparsable_authority_is_rejected RefLib.lib RefLib.corruptedRoot RefLib.w0
     "x509: malformed certificate" rfl⟩

/-- Counterexample to C7 as stated: two server leaves issued one after the
other under the same reference root are different certificates, name the same
issuer, and both carry serial number 2. -/
theorem two_server_leaves_share_a_serial :
    RefLib.serverRun.val.succeeded = true ∧ RefLib.secondServerRun.val.succeeded = true ∧
    (RefLib.certOf RefLib.serverRun).certificateDER ≠
      (RefLib.certOf RefLib.secondServerRun).certificateDER ∧
    (RefLib.lib.ParseCertificate (RefLib.certOf RefLib.serverRun).certificateDER).toOption.map
      (fun c => (c.Issuer.CommonName, c.SerialNumber)) = some ("my-ca", some 2) ∧
    (RefLib.lib.ParseCertificate
      (RefLib.certOf RefLib.secondServerRun).certificateDER).toOption.map
      (fun c => (c.Issuer.CommonName, c.SerialNumber)) = some ("my-ca", some 2) ∧
    (signCalls RefLib.serverRun.trace).map (fun c => c.template.SerialNumber) = [some 2] ∧
    (signCalls RefLib.secondServerRun.trace).map (fun c => c.template.SerialNumber) =
      [some 2] := by
  decide

/-- C7, amended: the serial number is fixed by the role.  Every certificate
`IssueCACrt` creates has serial number 1, every certificate `IssueServerCrt`
creates has serial number 2 and every certificate `IssueClientCrt` creates has
serial number 3, so certificates of different roles have different serial
numbers. -/
theorem serial_number_is_fixed_by_role {W : Type} (L : Lib W)
    (CAs CAc : Option Certificate) (w0 ws wc : W) :
    (∀ c ∈ signCalls (IssueCACrt L w0).trace, c.template.SerialNumber = some 1) ∧
    (∀ c ∈ signCalls (IssueServerCrt L CAs ws).trace, c.template.SerialNumber = some 2) ∧
    (∀ c ∈ signCalls (IssueClientCrt L CAc wc).trace, c.template.SerialNumber = some 3) ∧
    (∀ a ∈ signCalls (IssueCACrt L w0).trace, ∀ s ∈ signCalls (IssueServerCrt L CAs ws).trace,
      ∀ c ∈ signCalls (IssueClientCrt L CAc wc).trace,
        a.template.SerialNumber ≠ s.template.SerialNumber ∧
        a.template.SerialNumber ≠ c.template.SerialNumber ∧
        s.template.SerialNumber ≠ c.template.SerialNumber) := by
  have h1 : ∀ c ∈ signCalls (IssueCACrt L w0).trace, c.template.SerialNumber = some 1 := by
    intro c hc
    obtain ⟨notBefore, key, ht, -⟩ := IssueCACrt_signCalls L w0 c hc
    rw [ht]
    rfl
  have h2 : ∀ c ∈ signCalls (IssueServerCrt L CAs ws).trace,
      c.template.SerialNumber = some 2 := by
    intro c hc
    obtain ⟨CA, notBefore, key, -, ht, -⟩ := IssueServerCrt_signCalls L CAs ws c hc
    rw [ht]
    rfl
  have h3 : ∀ c ∈ signCalls (IssueClientCrt L CAc wc).trace,
      c.template.SerialNumber = some 3 := by
    intro c hc
    obtain ⟨CA, notBefore, key, -, ht, -⟩ := IssueClientCrt_signCalls L CAc wc c hc
    rw [ht]
    rfl
  refine ⟨h1, h2, h3, ?_⟩
  intro a ha s hs c hc
  rw [h1 a ha, h2 s hs, h3 c hc]
  decide

/-- Witness of the amended C7: the root, the server leaf and the client leaf
of the reference bootstrap each create one certificate. -/
theorem serial_number_is_fixed_by_role_witness :
    (signCalls RefLib.rootRun.trace).length = 1 ∧
    (signCalls RefLib.serverRun.trace).length = 1 ∧
    (signCalls RefLib.clientRun.trace).length = 1 ∧
    (∀ c ∈ signCalls RefLib.rootRun.trace, c.template.SerialNumber = some 1) ∧
    (∀ c ∈ signCalls RefLib.serverRun.trace, c.template.SerialNumber = some 2) ∧
    (∀ c ∈ signCalls RefLib.clientRun.trace, c.template.SerialNumber = some 3) ∧
    (∀ a ∈ signCalls RefLib.rootRun.trace, ∀ s ∈ signCalls RefLib.serverRun.trace,
      ∀ c ∈ signCalls RefLib.clientRun.trace,
        a.template.SerialNumber ≠ s.template.SerialNumber ∧
        a.template.SerialNumber ≠ c.template.SerialNumber ∧
        s.template.SerialNumber ≠ c.template.SerialNumber) :=
  ⟨by decide, by decide, by decide,
   serial_number_is_fixed_by_role RefLib.lib RefLib.rootRun.val.cert RefLib.rootRun.val.cert
     RefLib.w0 RefLib.rootRun.world RefLib.serverRun.world⟩

/-- Counterexample to C8 as stated: the certificate `IssueCACrt` returns holds
the private key of the root authority.  Its `privateKey` is the key that
signed the root certificate, its `PrivatePEM` decodes to its `privateDER`,
which parses back to that key, and the same key then signs the server leaf. -/
theorem root_bundle_holds_the_root_key :
    RefLib.rootRun.val = .returned (some (RefLib.certOf RefLib.rootRun)) none ∧
    (RefLib.certOf RefLib.rootRun).privateKey = some (RefLib.keyOf 11) ∧
    (signCalls RefLib.rootRun.trace).map (fun c => c.priv) = [some (RefLib.keyOf 11)] ∧
    RefLib.lib.Decode (RefLib.certOf RefLib.rootRun).PrivatePEM =
      (some (keyBlock (RefLib.certOf RefLib.rootRun).privateDER), []) ∧
    (RefLib.ParseECPrivateKey (RefLib.certOf RefLib.rootRun).privateDER).toOption =
      some (RefLib.keyOf 11) ∧
    (signCalls RefLib.serverRun.trace).map (fun c => c.priv) = [some (RefLib.keyOf 11)] := by
  decide

/-- C8, amended: a leaf bundle holds the leaf key only.  When `IssueServerCrt`
or `IssueClientCrt` returns a certificate, its `privateKey` is the key generated
in the call, `privateDER` and `PrivatePEM` encode that key, and `certificateDER`
and `CertificatePEM` are the output of the one certificate creation, whose
signing-key argument is the authority's `privateKey`.  With any other private
key in the authority the call generates the same key and, when it returns a
certificate, the same `privateKey`, `privateDER` and `PrivatePEM`.  (The
certificate `IssueCACrt` returns does hold the root key.) -/
theorem leaf_bundle_holds_only_the_leaf_key {W : Type} (L : Lib W) (CA : Certificate) (w0 : W) :
    (∀ cert, (IssueServerCrt L (some CA) w0).val = .returned (some cert) none →
      ∃ key, generatedKeys (IssueServerCrt L (some CA) w0).trace = [key] ∧
        cert.privateKey = some key ∧ L.MarshalECPrivateKey key = .ok cert.privateDER ∧
        cert.PrivatePEM = L.EncodeToMemory (keyBlock cert.privateDER) ∧
        cert.CertificatePEM = L.EncodeToMemory (certBlock cert.certificateDER) ∧
        (signCalls (IssueServerCrt L (some CA) w0).trace).length = 1 ∧
        (∀ c ∈ signCalls (IssueServerCrt L (some CA) w0).trace,
          c.priv = CA.privateKey ∧ c.res = .ok cert.certificateDER) ∧
        ∀ (other : Option ecdsa.PrivateKey) (cert2 : Certificate),
          (IssueServerCrt L (some { CA with privateKey := other }) w0).val =
            .returned (some cert2) none →
          cert2.privateKey = cert.privateKey ∧ cert2.privateDER = cert.privateDER ∧
            cert2.PrivatePEM = cert.PrivatePEM) ∧
    (∀ cert, (IssueClientCrt L (some CA) w0).val = .returned (some cert) none →
      ∃ key, generatedKeys (IssueClientCrt L (some CA) w0).trace = [key] ∧
        cert.privateKey = some key ∧ L.MarshalECPrivateKey key = .ok cert.privateDER ∧
        cert.PrivatePEM = L.EncodeToMemory (keyBlock cert.privateDER) ∧
        cert.CertificatePEM = L.EncodeToMemory (certBlock cert.certificateDER) ∧
        (signCalls (IssueClientCrt L (some CA) w0).trace).length = 1 ∧
        (∀ c ∈ signCalls (IssueClientCrt L (some CA) w0).trace,
          c.priv = CA.privateKey ∧ c.res = .ok cert.certificateDER) ∧
        ∀ (other : Option ecdsa.PrivateKey) (cert2 : Certificate),
          (IssueClientCrt L (some { CA with privateKey := other }) w0).val =
            .returned (some cert2) none →
          cert2.privateKey = cert.privateKey ∧ cert2.privateDER = cert.privateDER ∧
            cert2.PrivatePEM = cert.PrivatePEM) := by
  constructor
  · intro cert hs
    have hsucc : (IssueServerCrt L (some CA) w0).val.succeeded = true := by rw [hs]; rfl
    obtain ⟨CA1, caCert, key, w1, der, w3, keyDER, hCA, -, hg, -, hm, hrun⟩ :=
      IssueServerCrt_of_succeeded L (some CA) w0 hsucc
    simp only [Option.some.injEq] at hCA
    subst hCA
    rw [hrun] at hs ⊢
    simp only [Result.returned.injEq, Option.some.injEq, and_true] at hs
    subst hs
    refine ⟨key, by simp [generatedKeys], rfl, hm, rfl, rfl, by simp [signCalls],
      by simp [signCalls], ?_⟩
    intro other cert2 hs2
    have hsucc2 : (IssueServerCrt L (some { CA with privateKey := other }) w0).val.succeeded =
        true := by rw [hs2]; rfl
    obtain ⟨CA2, caCert2, key2, w12, der2, w32, keyDER2, -, -, hg2, -, hm2, hrun2⟩ :=
      IssueServerCrt_of_succeeded L (some { CA with privateKey := other }) w0 hsucc2
    rw [hrun2] at hs2
    simp only [Result.returned.injEq, Option.some.injEq, and_true] at hs2
    subst hs2
    rw [hg] at hg2
    simp only [Prod.mk.injEq, Except.ok.injEq] at hg2
    obtain ⟨hk, -⟩ := hg2
    subst hk
    rw [hm] at hm2
    simp only [Except.ok.injEq] at hm2
    subst hm2
    exact ⟨rfl, rfl, rfl⟩
  · intro cert hs
    have hsucc : (IssueClientCrt L (some CA) w0).val.succeeded = true := by rw [hs]; rfl
    obtain ⟨CA1, caCert, key, w1, der, w3, keyDER, hCA, -, hg, -, hm, hrun⟩ :=
      IssueClientCrt_of_succeeded L (some CA) w0 hsucc
    simp only [Option.some.injEq] at hCA
    subst hCA
    rw [hrun] at hs ⊢
    simp only [Result.returned.injEq, Option.some.injEq, and_true] at hs
    subst hs
    refine ⟨key, by simp [generatedKeys], rfl, hm, rfl, rfl, by simp [signCalls],
      by simp [signCalls], ?_⟩
    intro other cert2 hs2
    have hsucc2 : (IssueClientCrt L (some { CA with privateKey := other }) w0).val.succeeded =
        true := by rw [hs2]; rfl
    obtain ⟨CA2, caCert2, key2, w12, der2, w32, keyDER2, -, -, hg2, -, hm2, hrun2⟩ :=
      IssueClientCrt_of_succeeded L (some { CA with privateKey := other }) w0 hsucc2
    rw [hrun2] at hs2
    simp only [Result.returned.injEq, Option.some.injEq, and_true] at hs2
    subst hs2
    rw [hg] at hg2
    simp only [Prod.mk.injEq, Except.ok.injEq] at hg2
    obtain ⟨hk, -⟩ := hg2
    subst hk
    rw [hm] at hm2
    simp only [Except.ok.injEq] at hm2
    subst hm2
    exact ⟨rfl, rfl, rfl⟩

/-- Witness of the amended C8: the server leaf issued under the reference root
holds the key generated for it, which is not the root key that signed it. -/
theorem leaf_bundle_holds_only_the_leaf_key_witness :
    (IssueServerCrt RefLib.lib (some (RefLib.certOf RefLib.rootRun)) RefLib.rootRun.world).val =
      .returned (some (RefLib.certOf RefLib.serverRun)) none ∧
    (RefLib.certOf RefLib.serverRun).privateKey = some (RefLib.keyOf 33) ∧
    (RefLib.certOf RefLib.rootRun).privateKey = some (RefLib.keyOf 11) ∧
    ∃ key, generatedKeys (IssueServerCrt RefLib.lib (some (RefLib.certOf RefLib.rootRun))
        RefLib.rootRun.world).trace = [key] ∧
      (RefLib.certOf RefLib.serverRun).privateKey = some key ∧
      RefLib.lib.MarshalECPrivateKey key = .ok (RefLib.certOf RefLib.serverRun).privateDER ∧
      (RefLib.certOf RefLib.serverRun).PrivatePEM =
        RefLib.lib.EncodeToMemory (keyBlock (RefLib.certOf RefLib.serverRun).privateDER) ∧
      (RefLib.certOf RefLib.serverRun).CertificatePEM =
        RefLib.lib.EncodeToMemory (certBlock (RefLib.certOf RefLib.serverRun).certificateDER) ∧
      (signCalls (IssueServerCrt RefLib.lib (some (RefLib.certOf RefLib.rootRun))
        RefLib.rootRun.world).trace).length = 1 ∧
      (∀ c ∈ signCalls (IssueServerCrt RefLib.lib (some (RefLib.certOf RefLib.rootRun))
          RefLib.rootRun.world).trace,
        c.priv = (RefLib.certOf RefLib.rootRun).privateKey ∧
          c.res = .ok (RefLib.certOf RefLib.serverRun).certificateDER) ∧
      ∀ (other : Option ecdsa.PrivateKey) (cert2 : Certificate),
        (IssueServerCrt RefLib.lib
          (some { RefLib.certOf RefLib.rootRun with privateKey := other })
          RefLib.rootRun.world).val = .returned (some cert2) none →
        cert2.privateKey = (RefLib.certOf RefLib.serverRun).privateKey ∧
          cert2.privateDER = (RefLib.certOf RefLib.serverRun).privateDER ∧
          cert2.PrivatePEM = (RefLib.certOf RefLib.serverRun).PrivatePEM :=
  ⟨by decide, by decide, by decide,
   (leaf_bundle_holds_only_the_leaf_key RefLib.lib (RefLib.certOf RefLib.rootRun)
     RefLib.rootRun.world).1 (RefLib.certOf RefLib.serverRun) (by decide)⟩

/-- C9: bootstrap is all-or-nothing.  Each issuance call on a non-nil authority
returns a certificate with a nil error, every field filled by a successful
library call, or a nil certificate with an error.  In `main` an error of the
root, the server leaf, the client leaf, the server key pair or the client key
pair ends the run in `log.Fatalln` with the calls made up to that step and
none after it; `main` ends either so or with both transport configurations
built from the results of all five steps, and never dereferences nil.  Under
the contracts of `encoding/pem` and `AppendCertsFromPEM` the pool then holds
the parsed root certificate and the append reported success. -/
theorem bootstrap_is_all_or_nothing {W : Type} (L : Lib W) (w0 : W) :
    (∀ (CA : Certificate) (w : W) (r : Run W),
      (r = IssueCACrt L w ∨ r = IssueServerCrt L (some CA) w ∨
        r = IssueClientCrt L (some CA) w) →
      (∃ cert key, r.val = .returned (some cert) none ∧ cert.privateKey = some key ∧
        Event.generateKey (.ok key) ∈ r.trace ∧
        Event.marshalECPrivateKey key (.ok cert.privateDER) ∈ r.trace ∧
        (∃ template parent pub priv,
          Event.createCertificate template parent pub priv (.ok cert.certificateDER) ∈
            r.trace) ∧
        Event.encodeToMemory (certBlock cert.certificateDER) cert.CertificatePEM ∈ r.trace ∧
        Event.encodeToMemory (keyBlock cert.privateDER) cert.PrivatePEM ∈ r.trace) ∨
      (∃ e, r.val = .returned none (some e))) ∧
    (∀ e, (mainRoot L w0).val.err = some e →
      main L w0 = ⟨.fatal e, (mainRoot L w0).world, (mainRoot L w0).trace⟩) ∧
    ((mainRoot L w0).val.succeeded = true → ∀ e, (mainServer L w0).val.err = some e →
      main L w0 = ⟨.fatal e, (mainServer L w0).world,
        (mainRoot L w0).trace ++ (mainServer L w0).trace⟩) ∧
    ((mainRoot L w0).val.succeeded = true → (mainServer L w0).val.succeeded = true →
      ∀ e, (mainClient L w0).val.err = some e →
      main L w0 = ⟨.fatal e, (mainClient L w0).world, issuanceTrace L w0⟩) ∧
    (∀ ca srv client, (mainRoot L w0).val = .returned (some ca) none →
      (mainServer L w0).val = .returned (some srv) none →
      (mainClient L w0).val = .returned (some client) none →
      (∀ e, L.X509KeyPair srv.CertificatePEM srv.PrivatePEM = .error e →
        main L w0 = ⟨.fatal e, (mainClient L w0).world, issuanceTrace L w0 ++
          [.x509KeyPair srv.CertificatePEM srv.PrivatePEM (.error e)]⟩) ∧
      (∀ srvTLSCert, L.X509KeyPair srv.CertificatePEM srv.PrivatePEM = .ok srvTLSCert →
        (∀ e, L.X509KeyPair client.CertificatePEM client.PrivatePEM = .error e →
          main L w0 = ⟨.fatal e, (mainClient L w0).world, issuanceTrace L w0 ++
            [.x509KeyPair srv.CertificatePEM srv.PrivatePEM (.ok srvTLSCert),
             .x509KeyPair client.CertificatePEM client.PrivatePEM (.error e)]⟩) ∧
        (∀ clientTLSCert,
          L.X509KeyPair client.CertificatePEM client.PrivatePEM = .ok clientTLSCert →
          main L w0 =
            ⟨.configured
                (clientConfig clientTLSCert
                  (L.AppendCertsFromPEM x509.NewCertPool ca.CertificatePEM).1)
                (serverConfig srvTLSCert
                  (L.AppendCertsFromPEM x509.NewCertPool ca.CertificatePEM).1),
              (mainClient L w0).world, issuanceTrace L w0 ++
              [.x509KeyPair srv.CertificatePEM srv.PrivatePEM (.ok srvTLSCert),
               .x509KeyPair client.CertificatePEM client.PrivatePEM (.ok clientTLSCert),
               .appendCertsFromPEM ca.CertificatePEM
                 (L.AppendCertsFromPEM x509.NewCertPool ca.CertificatePEM).2]⟩))) ∧
    ((∃ e, (main L w0).val = .fatal e) ∨
      ∃ ca srv client srvTLSCert clientTLSCert,
        (mainRoot L w0).val = .returned (some ca) none ∧
        (mainServer L w0).val = .returned (some srv) none ∧
        (mainClient L w0).val = .returned (some client) none ∧
        L.X509KeyPair srv.CertificatePEM srv.PrivatePEM = .ok srvTLSCert ∧
        L.X509KeyPair client.CertificatePEM client.PrivatePEM = .ok clientTLSCert ∧
        (main L w0).val = .configured
          (clientConfig clientTLSCert
            (L.AppendCertsFromPEM x509.NewCertPool ca.CertificatePEM).1)
          (serverConfig srvTLSCert
            (L.AppendCertsFromPEM x509.NewCertPool ca.CertificatePEM).1)) ∧
    (main L w0).val ≠ .nilDereference ∧
    (PemRoundTrip L → AppendAddsParsed L → ∀ c s, (main L w0).val = .configured c s →
      ∃ ca caCert, (mainRoot L w0).val = .returned (some ca) none ∧
        L.ParseCertificate ca.certificateDER = .ok caCert ∧
        L.AppendCertsFromPEM x509.NewCertPool ca.CertificatePEM = ([caCert], true) ∧
        c.RootCAs = some [caCert] ∧ s.ClientCAs = some [caCert]) := by
  obtain ⟨hf1, hf2, hf3⟩ := main_fatal_issuance L w0
  refine ⟨?_, hf1, hf2, hf3, main_after_issuance L w0, main_cases L w0, ?_, ?_⟩
  · intro CA w r hr
    have hret : r.val.succeeded = true ∨ r.val.failed = true := by
      rcases hr with rfl | rfl | rfl
      · exact IssueCACrt_returns L w
      · exact IssueServerCrt_returns L CA w
      · exact IssueClientCrt_returns L CA w
    rcases hret with hs | hf
    · exact Or.inl (issued_is_populated L (some CA) w r hr hs)
    · exact Or.inr ((failed_iff _).1 hf)
  · rcases main_cases L w0 with ⟨e, he⟩ | ⟨ca, srv, client, t1, t2, -, -, -, -, -, hm⟩
    · rw [he]
      simp
    · rw [hm]
      simp
  · intro hpem happ c s hcfg
    rcases main_cases L w0 with ⟨e, he⟩ | ⟨ca, srv, client, t1, t2, h1, h2, -, -, -, hm⟩
    · rw [he] at hcfg
      simp at hcfg
    · obtain ⟨caCert, hp, hpool⟩ := root_pool L w0 hpem happ ca srv h1 h2
      rw [hm, hpool] at hcfg
      simp only [MainResult.configured.injEq] at hcfg
      obtain ⟨hc, hs⟩ := hcfg
      subst hc
      subst hs
      exact ⟨ca, caCert, h1, hp, hpool, rfl, rfl⟩

/-- Witness of C9: with enough entropy the reference bootstrap builds both
configurations around the parsed root; with entropy that runs out while the
server certificate is signed, `main` ends in `log.Fatalln` with the calls of
the root and the server leaf only. -/
theorem bootstrap_is_all_or_nothing_witness :
    (main RefLib.lib RefLib.w0).val.isConfigured = true ∧
    (∀ c s, (main RefLib.lib RefLib.w0).val = .configured c s →
      ∃ ca caCert, (mainRoot RefLib.lib RefLib.w0).val = .returned (some ca) none ∧
        RefLib.lib.ParseCertificate ca.certificateDER = .ok caCert ∧
        RefLib.lib.AppendCertsFromPEM x509.NewCertPool ca.CertificatePEM = ([caCert], true) ∧
        c.RootCAs = some [caCert] ∧ s.ClientCAs = some [caCert]) ∧
    (mainRoot RefLib.lib RefLib.wShort).val.succeeded = true ∧
    (mainServer RefLib.lib RefLib.wShort).val.err =
      some "authority: Server create certificate: EOF" ∧
    main RefLib.lib RefLib.wShort =
      ⟨.fatal "authority: Server create certificate: EOF",
        (mainServer RefLib.lib RefLib.wShort).world,
        (mainRoot RefLib.lib RefLib.wShort).trace ++
          (mainServer RefLib.lib RefLib.wShort).trace⟩ :=
  ⟨by decide,
   (bootstrap_is_all_or_nothing RefLib.lib RefLib.w0).2.2.2.2.2.2.2 RefLib.pemRoundTrip
     RefLib.appendAddsParsed,
   by decide, by decide,
   (bootstrap_is_all_or_nothing RefLib.lib RefLib.wShort).2.2.1 (by decide) _ (by decide)⟩

/-- C10: encoding round trip.  Over a library that meets the contract of
`encoding/pem`, for every certificate `IssueCACrt`, `IssueServerCrt` or
`IssueClientCrt` returns: `CertificatePEM` encodes `certificateDER` alone and
`PrivatePEM` encodes `privateDER` alone; decoding `CertificatePEM` yields the
headerless block of type `CERTIFICATE` holding exactly `certificateDER` and no
remaining input, and decoding `PrivatePEM` yields the headerless block of type
`EC PRIVATE KEY` holding exactly `privateDER` and no remaining input. -/
theorem pem_round_trip {W : Type} (L : Lib W) (hpem : PemRoundTrip L)
    (CACertificate : Option Certificate) (w0 : W) (r : Run W) (cert : Certificate)
    (hr : r = IssueCACrt L w0 ∨ r = IssueServerCrt L CACertificate w0 ∨
      r = IssueClientCrt L CACertificate w0)
    (hs : r.val = .returned (some cert) none) :
    cert.CertificatePEM =
      L.EncodeToMemory { Typ := "CERTIFICATE", Headers := [], Bytes := cert.certificateDER } ∧
    cert.PrivatePEM =
      L.EncodeToMemory { Typ := "EC PRIVATE KEY", Headers := [], Bytes := cert.privateDER } ∧
    L.Decode cert.CertificatePEM =
      (some { Typ := "CERTIFICATE", Headers := [], Bytes := cert.certificateDER }, []) ∧
    L.Decode cert.PrivatePEM =
      (some { Typ := "EC PRIVATE KEY", Headers := [], Bytes := cert.privateDER }, []) := by
  have hsucc : r.val.succeeded = true := by rw [hs]; rfl
  have hfields : cert.CertificatePEM = L.EncodeToMemory (certBlock cert.certificateDER) ∧
      cert.PrivatePEM = L.EncodeToMemory (keyBlock cert.privateDER) := by
    rcases hr with rfl | rfl | rfl
    · obtain ⟨key, w1, der, w3, keyDER, -, -, -, hrun⟩ := IssueCACrt_of_succeeded L w0 hsucc
      rw [hrun] at hs
      simp only [Result.returned.injEq, Option.some.injEq, and_true] at hs
      subst hs
      exact ⟨rfl, rfl⟩
    · obtain ⟨CA, caCert, key, w1, der, w3, keyDER, -, -, -, -, -, hrun⟩ :=
        IssueServerCrt_of_succeeded L CACertificate w0 hsucc
      rw [hrun] at hs
      simp only [Result.returned.injEq, Option.some.injEq, and_true] at hs
      subst hs
      exact ⟨rfl, rfl⟩
    · obtain ⟨CA, caCert, key, w1, der, w3, keyDER, -, -, -, -, -, hrun⟩ :=
        IssueClientCrt_of_succeeded L CACertificate w0 hsucc
      rw [hrun] at hs
      simp only [Result.returned.injEq, Option.some.injEq, and_true] at hs
      subst hs
      exact ⟨rfl, rfl⟩
  obtain ⟨hc, hk⟩ := hfields
  refine ⟨hc, hk, ?_, ?_⟩
  · rw [hc]
    exact (hpem cert.certificateDER).1
  · rw [hk]
    exact (hpem cert.privateDER).2

/-- Witness of C10: the reference library meets the contract, and the
statement holds of the reference root certificate. -/
theorem pem_round_trip_witness :
    PemRoundTrip RefLib.lib ∧
    RefLib.rootRun.val = .returned (some (RefLib.certOf RefLib.rootRun)) none ∧
    (RefLib.certOf RefLib.rootRun).CertificatePEM =
      RefLib.lib.EncodeToMemory
        { Typ := "CERTIFICATE", Headers := []
          Bytes := (RefLib.certOf RefLib.rootRun).certificateDER } ∧
    (RefLib.certOf RefLib.rootRun).PrivatePEM =
      RefLib.lib.EncodeToMemory
        { Typ := "EC PRIVATE KEY", Headers := []
          Bytes := (RefLib.certOf RefLib.rootRun).privateDER } ∧
    RefLib.lib.Decode (RefLib.certOf RefLib.rootRun).CertificatePEM =
      (some { Typ := "CERTIFICATE", Headers := []
              Bytes := (RefLib.certOf RefLib.rootRun).certificateDER }, []) ∧
    RefLib.lib.Decode (RefLib.certOf RefLib.rootRun).PrivatePEM =
      (some { Typ := "EC PRIVATE KEY", Headers := []
              Bytes := (RefLib.certOf RefLib.rootRun).privateDER }, []) :=
  ⟨RefLib.pemRoundTrip, by decide,
   pem_round_trip RefLib.lib RefLib.pemRoundTrip none RefLib.w0 RefLib.rootRun
     (RefLib.certOf RefLib.rootRun) (Or.inl rfl) (by decide)⟩

end Mtls
